import Mathlib

/-!
# Verification of the portion-renderer repository

A shallow embedding of the `portion-renderer` crate (and its `tightvec`
dependency) together with proofs about the embedded definitions.

Conventions used throughout:
* Rust `u32`/`usize` quantities are modelled as `Nat`; Rust `i32` deltas as
  `Int`.  All arithmetic appearing here stays far from the wrap-around range
  in the scenarios the claims quantify over.
* Rust `f32` coordinates are modelled as `ℚ` (exact arithmetic).
* Operations that can `panic!` (out-of-range `Vec` indexing, explicit
  `panic!` calls) are modelled as `Option`-valued (`none` = abort) or
  `Except Unit`-valued state transformers.
-/

namespace PortionRenderer

/-- `Rect` from src/portion-renderer/src/bounds.rs: an axis-aligned
unsigned-integer box `{x, y, w, h}`. -/
structure Rect where
  x : Nat
  y : Nat
  w : Nat
  h : Nat
deriving DecidableEq, Repr

/-- `Rect::contains_u32` from src/portion-renderer/src/bounds.rs:
`self.x <= x && self.y <= y && x < self.x + self.w && y < self.y + self.h`. -/
def Rect.containsU32 (r : Rect) (x y : Nat) : Bool :=
  decide (r.x ≤ x) && decide (r.y ≤ y) && decide (x < r.x + r.w) && decide (y < r.y + r.h)

/-- `Rect::intersection` from src/portion-renderer/src/bounds.rs:
`x1 = max(a.x, b.x)`, `x2 = min(a.x + a.w, b.x + b.w)` (likewise for `y`);
the result is `Some` iff `x2 > x1 && y2 > y1`. -/
def Rect.intersection (a b : Rect) : Option Rect :=
  let x1 := max a.x b.x
  let x2 := min (a.x + a.w) (b.x + b.w)
  let y1 := max a.y b.y
  let y2 := min (a.y + a.h) (b.y + b.h)
  if x2 > x1 ∧ y2 > y1 then
    some ⟨x1, y1, x2 - x1, y2 - y1⟩
  else
    none

/-- Pixel membership in a `Rect`: the set of integer pixel coordinates the
box covers (the same predicate `contains_u32` decides). -/
@[reducible] def Rect.mem (r : Rect) (px py : Nat) : Prop :=
  r.x ≤ px ∧ px < r.x + r.w ∧ r.y ≤ py ∧ py < r.y + r.h

theorem Rect.containsU32_iff_mem (r : Rect) (x y : Nat) :
    r.containsU32 x y = true ↔ r.mem x y := by
  simp [Rect.containsU32, Rect.mem]
  tauto

/-- C5: `intersection` returns the rectangle whose pixels are exactly the
pixels common to both inputs when such a pixel exists, and `none` when the
two boxes share no pixel (edge-adjacent or empty boxes share none). -/
theorem intersection_spec (a b : Rect) :
    (∀ r, a.intersection b = some r →
      ((∀ px py, r.mem px py ↔ (a.mem px py ∧ b.mem px py)) ∧
        ∃ px py, a.mem px py ∧ b.mem px py)) ∧
    (a.intersection b = none → ∀ px py, ¬(a.mem px py ∧ b.mem px py)) := by
  constructor
  · intro r hr
    simp only [Rect.intersection] at hr
    split at hr
    · rename_i hcond
      cases hr
      constructor
      · intro px py
        simp only [Rect.mem]
        omega
      · refine ⟨max a.x b.x, max a.y b.y, ?_, ?_⟩ <;>
          · simp only [Rect.mem]
            omega
    · exact absurd hr (by simp)
  · intro hnone px py
    simp only [Rect.intersection] at hnone
    split at hnone
    · exact absurd hnone (by simp)
    · rename_i hcond
      simp only [Rect.mem]
      omega

end PortionRenderer

namespace Tightvec

/-- `TightVec<T>` from src/tightvec/src/lib.rs: a vector of slots `buf`
plus a queue `next` of freed slot indices (the `VecDeque` is modelled as a
list whose head is the queue front). -/
structure TightVec (σ : Type) where
  buf : List σ
  next : List Nat
deriving DecidableEq, Repr

/-- The empty arena (`TightVec::default`). -/
def TightVec.empty {σ : Type} : TightVec σ := ⟨[], []⟩

/-- `TightVec::insert` from src/tightvec/src/lib.rs: pop the front of the
free queue and overwrite that slot, else push at the end.

Modelled from the spec: the returned slot index (`insert(value) -> index`).
The snapshot of tightvec under src/ declares `insert` without a return
value, but the renderer under src/portion-renderer/src/lib.rs binds the
result of `self.textures.insert(txt)` / `self.objects.insert(new_object)`
as the new slot's index, so the slot-reuse mutation is taken from the
source and the returned index (the slot written) from the spec. -/
def TightVec.insert {σ : Type} (t : TightVec σ) (v : σ) : Nat × TightVec σ :=
  match t.next with
  | i :: rest => (i, ⟨t.buf.set i v, rest⟩)
  | [] => (t.buf.length, ⟨t.buf ++ [v], []⟩)

/-- `TightVec::remove` from src/tightvec/src/lib.rs: if the index is in
range, overwrite the slot with the element type's default value `d` and
push the index at the back of the free queue; out-of-range is a no-op. -/
def TightVec.remove {σ : Type} (d : σ) (t : TightVec σ) (i : Nat) : TightVec σ :=
  if i < t.buf.length then ⟨t.buf.set i d, t.next ++ [i]⟩ else t

/-- `TightVec::len`. -/
def TightVec.len {σ : Type} (t : TightVec σ) : Nat := t.buf.length

/-- `TightVec::unused_len`. -/
def TightVec.unusedLen {σ : Type} (t : TightVec σ) : Nat := t.next.length

/-- Insert a list of values one after the other, returning the final arena. -/
def TightVec.insertAll {σ : Type} (t : TightVec σ) (vs : List σ) : TightVec σ :=
  vs.foldl (fun acc v => (acc.insert v).2) t

theorem TightVec.insertAll_empty {σ : Type} (vs : List σ) :
    TightVec.insertAll TightVec.empty vs = ⟨vs, []⟩ := by
  suffices h : ∀ (pre : List σ), TightVec.insertAll ⟨pre, []⟩ vs = ⟨pre ++ vs, []⟩ by
    simpa [TightVec.empty] using h []
  induction vs with
  | nil => intro pre; simp [TightVec.insertAll]
  | cons v rest ih =>
    intro pre
    simp only [TightVec.insertAll, List.foldl_cons, TightVec.insert] at *
    simpa using ih (pre ++ [v])

/-- C4: slot stability of the arena.  Starting from the empty arena, insert
the values `vs`, remove slot `k`, then insert `w`: the insert reuses index
`k` (the oldest — and only — freed index), slot `k` now holds `w`, and every
other slot holds the same value as before the remove/insert pair.  Moreover
`insert` in general reuses the front of the free queue when one exists and
appends otherwise. -/
theorem insert_reuses_removed_slot {σ : Type} (d : σ) (vs : List σ) (k : Nat) (w : σ)
    (hk : k < vs.length) :
    ((TightVec.remove d (TightVec.insertAll TightVec.empty vs) k).insert w).1 = k ∧
    ((TightVec.remove d (TightVec.insertAll TightVec.empty vs) k).insert w).2.buf.length
      = vs.length ∧
    ((TightVec.remove d (TightVec.insertAll TightVec.empty vs) k).insert w).2.buf[k]?
      = some w ∧
    (∀ j, j ≠ k →
      ((TightVec.remove d (TightVec.insertAll TightVec.empty vs) k).insert w).2.buf[j]?
        = vs[j]?) ∧
    (∀ (u : TightVec σ) (v : σ),
        (∀ i, u.next.head? = some i → (u.insert v).1 = i) ∧
        (u.next = [] → (u.insert v).1 = u.buf.length)) := by
  have ht : TightVec.insertAll TightVec.empty vs = ⟨vs, []⟩ := TightVec.insertAll_empty vs
  have ht' : TightVec.remove d (TightVec.insertAll TightVec.empty vs) k
      = ⟨vs.set k d, [k]⟩ := by
    rw [ht]
    simp only [TightVec.remove]
    rw [if_pos hk]
    simp
  have hr : (TightVec.remove d (TightVec.insertAll TightVec.empty vs) k).insert w
      = (k, ⟨(vs.set k d).set k w, []⟩) := by
    rw [ht']
    rfl
  refine ⟨by simp [hr], by simp [hr], ?_, ?_, ?_⟩
  · simp only [hr, List.set_set]
    exact List.getElem?_set_eq_of_lt w (by simpa using hk)
  · intro j hj
    simp only [hr, List.set_set]
    exact List.getElem?_set_ne hj.symm
  · intro u v
    constructor
    · intro i hi
      rcases u with ⟨ub, un⟩
      cases un with
      | nil => simp at hi
      | cons a rest =>
        simp only [List.head?] at hi
        cases hi
        simp [TightVec.insert]
    · intro hempty
      rcases u with ⟨ub, un⟩
      cases hempty
      simp [TightVec.insert, TightVec.len]

/-- Concrete witness for `insert_reuses_removed_slot`: three slots, free
slot 1, reinsert. -/
theorem insert_reuses_removed_slot_witness :
    (1 : Nat) < ([10, 20, 30] : List Nat).length ∧
    (((TightVec.remove 0 (TightVec.insertAll TightVec.empty [10, 20, 30]) 1).insert 99).1 = 1 ∧
     ((TightVec.remove 0 (TightVec.insertAll TightVec.empty [10, 20, 30]) 1).insert 99).2.buf.length
       = ([10, 20, 30] : List Nat).length ∧
     ((TightVec.remove 0 (TightVec.insertAll TightVec.empty [10, 20, 30]) 1).insert 99).2.buf[1]?
       = some 99 ∧
     (∀ j, j ≠ 1 →
       ((TightVec.remove 0 (TightVec.insertAll TightVec.empty [10, 20, 30]) 1).insert 99).2.buf[j]?
         = ([10, 20, 30] : List Nat)[j]?) ∧
     (∀ (u : TightVec Nat) (v : Nat),
        (∀ i, u.next.head? = some i → (u.insert v).1 = i) ∧
        (u.next = [] → (u.insert v).1 = u.buf.length))) :=
  ⟨by decide, insert_reuses_removed_slot 0 [10, 20, 30] 1 99 (by decide)⟩

end Tightvec

namespace PortionRenderer

/-- `Layer` from src/portion-renderer/src/lib.rs: a human-friendly z-key
`index`, the object indices on the layer, and the object indices that need
to be redrawn next cycle. -/
structure Layer where
  index : Nat
  objects : List Nat
  updates : List Nat
deriving DecidableEq, Repr

/-- Outcome of the scan loop inside `Layer::get_or_make_layer`: either an
existing layer was found at position `i` (`update_at_index = Some i`), or
the loop broke with `insert_at_index = i`. -/
inductive ScanResult where
  | update (i : Nat)
  | insert (i : Nat)
deriving DecidableEq, Repr

/-- The `for (i, layer) in layers.iter().enumerate()` loop of
`Layer::get_or_make_layer` (src/portion-renderer/src/lib.rs): breaks with
`update` on an equal index, with `insert i` on the first larger index, and
with `insert (i+1)` when the last element is reached.  An empty list leaves
`insert_at_index` at its initial value `0` (the Rust loop body never runs). -/
def scanLayers (layerIndex lastI : Nat) : Nat → List Layer → ScanResult
  | _, [] => .insert 0
  | i, l :: rest =>
    if l.index = layerIndex then .update i
    else if l.index > layerIndex then .insert i
    else if i = lastI then .insert (i + 1)
    else scanLayers layerIndex lastI (i + 1) rest

/-- `Layer::get_or_make_layer` from src/portion-renderer/src/lib.rs: scan
for the human index; on `update` return the found position, otherwise
`layers.push(Layer { index: layer_index, .. })` — note the source *pushes at
the end* while returning the computed `insert_at_index`. -/
def Layer.getOrMakeLayer (layers : List Layer) (layerIndex : Nat) : Nat × List Layer :=
  match scanLayers layerIndex (layers.length - 1) 0 layers with
  | .update i => (i, layers)
  | .insert i => (i, layers ++ [⟨layerIndex, [], []⟩])

/-- Strict ascent of a list of indices, as an executable predicate. -/
def strictlyAscending : List Nat → Bool
  | [] => true
  | [_] => true
  | a :: b :: rest => decide (a < b) && strictlyAscending (b :: rest)

/-- The spec's layer-list invariant: strictly increasing in `human_index`. -/
@[reducible] def layersStrictlySorted (l : List Layer) : Prop :=
  strictlyAscending (l.map Layer.index) = true

/-- C1 (failing input): starting from the initial single layer `{index 0}`,
requesting layer 1000 and then layer 500 leaves the vector `[0, 1000, 500]`
— not sorted — and returns position `1` for layer 500 although the layer
whose index is 500 sits at position 2 (position 1 holds index 1000):
`get_or_make_layer` pushes the new layer at the end instead of inserting it
at the computed position. -/
theorem getOrMakeLayer_breaks_sorted_invariant :
    layersStrictlySorted [⟨0, [], []⟩] ∧
    (Layer.getOrMakeLayer [⟨0, [], []⟩] 1000).1 = 1 ∧
    (Layer.getOrMakeLayer [⟨0, [], []⟩] 1000).2.map Layer.index = [0, 1000] ∧
    layersStrictlySorted (Layer.getOrMakeLayer [⟨0, [], []⟩] 1000).2 ∧
    (Layer.getOrMakeLayer (Layer.getOrMakeLayer [⟨0, [], []⟩] 1000).2 500).2.map Layer.index
      = [0, 1000, 500] ∧
    ¬ layersStrictlySorted (Layer.getOrMakeLayer (Layer.getOrMakeLayer [⟨0, [], []⟩] 1000).2 500).2 ∧
    (Layer.getOrMakeLayer (Layer.getOrMakeLayer [⟨0, [], []⟩] 1000).2 500).1 = 1 ∧
    ((Layer.getOrMakeLayer (Layer.getOrMakeLayer [⟨0, [], []⟩] 1000).2 500).2.map Layer.index)[
      (Layer.getOrMakeLayer (Layer.getOrMakeLayer [⟨0, [], []⟩] 1000).2 500).1]? = some 1000 := by
  decide

/-- `Point` from src/portion-renderer/src/bounds.rs (f32 modelled as ℚ). -/
structure QPoint where
  x : ℚ
  y : ℚ
deriving DecidableEq, Repr

/-- `Vector` from src/portion-renderer/src/bounds.rs (f32 modelled as ℚ). -/
structure QVector where
  x : ℚ
  y : ℚ
deriving DecidableEq, Repr

/-- `vector(x1, y1, x2, y2)` from src/portion-renderer/src/bounds.rs. -/
def vector (x1 y1 x2 y2 : ℚ) : QVector := ⟨x2 - x1, y2 - y1⟩

/-- `dot(u, v)` from src/portion-renderer/src/bounds.rs. -/
def dot (u v : QVector) : ℚ := u.x * v.x + u.y * v.y

/-- `TiltedRect` from src/portion-renderer/src/bounds.rs.  The source's
field `by` is spelled `b_y` here (`by` is reserved in Lean). -/
structure TiltedRect where
  ax : ℚ
  ay : ℚ
  bx : ℚ
  b_y : ℚ
  cx : ℚ
  cy : ℚ
  abVec : QVector
  abDot : ℚ
  bcVec : QVector
  bcDot : ℚ
  boundingRect : Rect
deriving DecidableEq, Repr

/-- The sort performed by `sorted_values` (src/portion-renderer/src/bounds.rs)
on one coordinate triple: the three values in ascending order. -/
def sort3 (a b c : ℚ) : ℚ × ℚ × ℚ :=
  if a ≤ b then
    if b ≤ c then (a, b, c)
    else if a ≤ c then (a, c, b)
    else (c, a, b)
  else
    if a ≤ c then (b, a, c)
    else if b ≤ c then (b, c, a)
    else (c, b, a)

/-- `TiltedRect::prepare` from src/portion-renderer/src/bounds.rs. -/
def TiltedRect.prepare (t : TiltedRect) : TiltedRect :=
  let abVec := vector t.ax t.ay t.bx t.b_y
  let bcVec := vector t.bx t.b_y t.cx t.cy
  { t with abVec, bcVec, abDot := dot abVec abVec, bcDot := dot bcVec bcVec }

/-- `TiltedRect::from_points` from src/portion-renderer/src/bounds.rs.  The
bounding-rect arithmetic mirrors the source lines 122-125 (including the
asymmetric `h` expression); `.ceil() as u32` is modelled as `Int.toNat ∘
Int.ceil` (negative values clamp to 0). -/
def TiltedRect.fromPoints (a b c : QPoint) : TiltedRect :=
  let (sx0, sx1, sx2) := sort3 a.x b.x c.x
  let (sy0, sy1, sy2) := sort3 a.y b.y c.y
  let x := (⌈sx0⌉ : Int).toNat
  let y := (⌈sy0⌉ : Int).toNat
  let w := (⌈sx2 - sx1 + sx1 - sx0⌉ : Int).toNat
  let h := (⌈sy2 - sy0 + sy1 - sy0⌉ : Int).toNat
  TiltedRect.prepare
    { ax := a.x, ay := a.y, bx := b.x, b_y := b.y, cx := c.x, cy := c.y,
      abVec := ⟨0, 0⟩, bcVec := ⟨0, 0⟩, abDot := 0, bcDot := 0,
      boundingRect := ⟨x, y, w, h⟩ }

/-- `Contains for TiltedRect::contains` from src/portion-renderer/src/bounds.rs:
`0 ≤ ab·am`, `0 ≤ bc·bm`, `ab·am ≤ ab·ab`, `bc·bm ≤ bc·bc`. -/
def TiltedRect.contains (t : TiltedRect) (x y : ℚ) : Bool :=
  let am := vector t.ax t.ay x y
  let bm := vector t.bx t.b_y x y
  decide (dot t.abVec am ≥ 0) && decide (dot t.bcVec bm ≥ 0) &&
    decide (dot t.abVec am ≤ t.abDot) && decide (dot t.bcVec bm ≤ t.bcDot)

/-- `TiltedRect::contains_u32` (casts the integer coordinates to ℚ). -/
def TiltedRect.containsU32 (t : TiltedRect) (x y : Nat) : Bool :=
  t.contains (x : ℚ) (y : ℚ)

theorem contains_fromPoints (p q r : QPoint) (x y : ℚ) :
    (TiltedRect.fromPoints p q r).contains x y = true ↔
      (0 ≤ (q.x - p.x) * (x - p.x) + (q.y - p.y) * (y - p.y) ∧
       0 ≤ (r.x - q.x) * (x - q.x) + (r.y - q.y) * (y - q.y) ∧
       (q.x - p.x) * (x - p.x) + (q.y - p.y) * (y - p.y) ≤
         (q.x - p.x) * (q.x - p.x) + (q.y - p.y) * (q.y - p.y) ∧
       (r.x - q.x) * (x - q.x) + (r.y - q.y) * (y - q.y) ≤
         (r.x - q.x) * (r.x - q.x) + (r.y - q.y) * (r.y - q.y)) := by
  simp only [TiltedRect.fromPoints, TiltedRect.prepare, TiltedRect.contains,
    vector, dot, Bool.and_eq_true, decide_eq_true_eq, ge_iff_le]
  tauto

/-- C8: cyclic relabeling invariance of `TiltedRect` containment.  For a
rectangle with corners `A, B, C, D` in cyclic order (`D = A + C - B` and
edge `AB` perpendicular to edge `BC`), building the `TiltedRect` from the
corner triples `(A,B,C)`, `(B,C,D)`, `(C,D,A)` and `(D,A,B)` yields
containment predicates that agree at every query point. -/
theorem tiltedRect_contains_cyclic_invariant (a b c d : QPoint)
    (hdx : d.x = a.x + c.x - b.x) (hdy : d.y = a.y + c.y - b.y)
    (horth : (b.x - a.x) * (c.x - b.x) + (b.y - a.y) * (c.y - b.y) = 0) :
    ∀ x y : ℚ,
      (TiltedRect.fromPoints b c d).contains x y = (TiltedRect.fromPoints a b c).contains x y ∧
      (TiltedRect.fromPoints c d a).contains x y = (TiltedRect.fromPoints a b c).contains x y ∧
      (TiltedRect.fromPoints d a b).contains x y = (TiltedRect.fromPoints a b c).contains x y := by
  intro x y
  have key1 : (d.x - c.x) * (x - c.x) + (d.y - c.y) * (y - c.y) =
      ((b.x - a.x) * (b.x - a.x) + (b.y - a.y) * (b.y - a.y)) -
        ((b.x - a.x) * (x - a.x) + (b.y - a.y) * (y - a.y)) := by
    rw [hdx, hdy]; linear_combination horth
  have key2 : (a.x - d.x) * (x - d.x) + (a.y - d.y) * (y - d.y) =
      ((c.x - b.x) * (c.x - b.x) + (c.y - b.y) * (c.y - b.y)) -
        ((c.x - b.x) * (x - b.x) + (c.y - b.y) * (y - b.y)) := by
    rw [hdx, hdy]; linear_combination -horth
  have hd1 : (d.x - c.x) * (d.x - c.x) + (d.y - c.y) * (d.y - c.y) =
      (b.x - a.x) * (b.x - a.x) + (b.y - a.y) * (b.y - a.y) := by
    rw [hdx, hdy]; ring
  have hd2 : (a.x - d.x) * (a.x - d.x) + (a.y - d.y) * (a.y - d.y) =
      (c.x - b.x) * (c.x - b.x) + (c.y - b.y) * (c.y - b.y) := by
    rw [hdx, hdy]; ring
  refine ⟨?_, ?_, ?_⟩
  · rw [Bool.eq_iff_iff, contains_fromPoints, contains_fromPoints, key1, hd1]
    constructor
    · rintro ⟨h1, h2, h3, h4⟩
      exact ⟨by linarith, by linarith, by linarith, by linarith⟩
    · rintro ⟨h1, h2, h3, h4⟩
      exact ⟨by linarith, by linarith, by linarith, by linarith⟩
  · rw [Bool.eq_iff_iff, contains_fromPoints, contains_fromPoints, key1, hd1, key2, hd2]
    constructor
    · rintro ⟨h1, h2, h3, h4⟩
      exact ⟨by linarith, by linarith, by linarith, by linarith⟩
    · rintro ⟨h1, h2, h3, h4⟩
      exact ⟨by linarith, by linarith, by linarith, by linarith⟩
  · rw [Bool.eq_iff_iff, contains_fromPoints, contains_fromPoints, key2, hd2]
    constructor
    · rintro ⟨h1, h2, h3, h4⟩
      exact ⟨by linarith, by linarith, by linarith, by linarith⟩
    · rintro ⟨h1, h2, h3, h4⟩
      exact ⟨by linarith, by linarith, by linarith, by linarith⟩

/-- Concrete witness for `tiltedRect_contains_cyclic_invariant`: the unit
square tilted 45° with corners (0,5), (5,0), (10,5), (5,10), checked at the
query point (5,5). -/
theorem tiltedRect_contains_cyclic_invariant_witness :
    ((⟨5, 0⟩ : QPoint).x = (⟨0, 5⟩ : QPoint).x + (⟨10, 5⟩ : QPoint).x - (⟨5, 10⟩ : QPoint).x) ∧
    (TiltedRect.fromPoints ⟨5, 10⟩ ⟨10, 5⟩ ⟨5, 0⟩).contains 5 5 =
      (TiltedRect.fromPoints ⟨0, 5⟩ ⟨5, 10⟩ ⟨10, 5⟩).contains 5 5 :=
  ⟨by norm_num,
   (tiltedRect_contains_cyclic_invariant ⟨0, 5⟩ ⟨5, 10⟩ ⟨10, 5⟩ ⟨5, 0⟩
      (by norm_num) (by norm_num) (by norm_num) 5 5).1⟩

end PortionRenderer

namespace PortionRenderer

/-- Modelled from the spec: the `Portioner` grid.  src/portion-renderer/src/lib.rs
declares `pub mod portioner;` but portioner.rs is not present under src/, so
the whole component is modelled from spec §3/§4.1: a `rows × cols` boolean
matrix overlaying the pixel buffer, each cell covering a
`col_width × row_height` block of pixels. -/
structure Portioner where
  rows : Nat
  cols : Nat
  rowHeight : Nat
  colWidth : Nat
  grid : List (List Bool)
deriving DecidableEq, Repr

/-- Mark cell `(r, c)` of a grid active (rows/cells out of range unchanged). -/
def markCell : List (List Bool) → Nat → Nat → List (List Bool)
  | [], _, _ => []
  | row :: rest, 0, c => row.set c true :: rest
  | row :: rest, r + 1, c => row :: markCell rest r c

/-- Modelled from the spec: `take_pixel(x, y)` maps the pixel to its grid
cell (`row = y / row_height`, `col = x / col_width`) and marks it active;
out-of-range coordinates are reported (non-fatal) and ignored. -/
def Portioner.takePixel (p : Portioner) (x y : Nat) : Portioner :=
  let row := y / p.rowHeight
  let col := x / p.colWidth
  if row < p.rows ∧ col < p.cols then
    { p with grid := markCell p.grid row col }
  else p

/-- Modelled from the spec: the left-to-right scan of one grid row that
collapses maximal runs of active cells into `(run_start, run_len)` pairs.
`i` is the column of the head of the remaining row; the third argument is
the run currently being built, if any. -/
def runsFrom : List Bool → Nat → Option (Nat × Nat) → List (Nat × Nat)
  | [], _, none => []
  | [], _, some r => [r]
  | b :: rest, i, none =>
    if b then runsFrom rest (i + 1) (some (i, 1)) else runsFrom rest (i + 1) none
  | b :: rest, i, some r =>
    if b then runsFrom rest (i + 1) (some (r.1, r.2 + 1)) else r :: runsFrom rest (i + 1) none

/-- The maximal runs of active cells of one grid row. -/
def rowRuns (row : List Bool) : List (Nat × Nat) := runsFrom row 0 none

/-- Modelled from the spec: walk the previously emitted rectangles from the
end backward (the accumulator is kept most-recent-first): if an entry's
bottom edge touches the candidate's row and its `x, w` exactly match,
extend that entry's height by 1; keep walking while bottom edges touch;
stop (`none`, meaning "emit a new rectangle") as soon as an entry's bottom
edge does not touch the row. -/
def extendBack : List Rect → Rect → Option (List Rect)
  | [], _ => none
  | r :: rest, cand =>
    if r.y + r.h = cand.y then
      if r.x = cand.x ∧ r.w = cand.w then
        some ({ r with h := r.h + 1 } :: rest)
      else
        match extendBack rest cand with
        | some rest' => some (r :: rest')
        | none => none
    else none

/-- Fold one candidate rectangle into the (reversed) accumulator. -/
def addCandidate (acc : List Rect) (cand : Rect) : List Rect :=
  match extendBack acc cand with
  | some acc' => acc'
  | none => cand :: acc

/-- Process the runs of row `rowIdx`, left to right, each as candidate
`{x: run_start, y: rowIdx, w: run_len, h: 1}`. -/
def processRow (runs : List (Nat × Nat)) (rowIdx : Nat) (acc : List Rect) : List Rect :=
  runs.foldl (fun a run => addCandidate a ⟨run.1, rowIdx, run.2, 1⟩) acc

/-- Scan all grid rows in order, then un-reverse the accumulator. -/
def flushRows : List (List Bool) → Nat → List Rect → List Rect
  | [], _, acc => acc.reverse
  | row :: rest, r, acc => flushRows rest (r + 1) (processRow (rowRuns row) r acc)

/-- Modelled from the spec: `flush_portions()` collapses the active cells
into rectangles row by row and resets every grid cell to inactive. -/
def Portioner.flushPortions (p : Portioner) : List Rect × Portioner :=
  (flushRows p.grid 0 [],
    { p with grid := p.grid.map (fun row => row.map (fun _ => false)) })

/-- An all-inactive grid row. -/
def emptyRow (cols : Nat) : List Bool := List.replicate cols false

/-- A grid row whose active cells are exactly the columns `[rx, rx+rw)`. -/
def bandRow (cols rx rw : Nat) : List Bool :=
  List.replicate rx false ++ List.replicate rw true ++ List.replicate (cols - (rx + rw)) false

/-- The `rows × cols` grid whose active cells are exactly the rectangle of
cells `[rx, rx+rw) × [ry, ry+rh)`. -/
def rectGrid (rows cols rx ry rw rh : Nat) : List (List Bool) :=
  List.replicate ry (emptyRow cols) ++ List.replicate rh (bandRow cols rx rw) ++
    List.replicate (rows - (ry + rh)) (emptyRow cols)

/-- Cell lookup in a grid (out-of-range cells read as inactive). -/
def cellAt (g : List (List Bool)) (r c : Nat) : Bool := (g.getD r []).getD c false

theorem runsFrom_replicate_false_append (n : Nat) (rest : List Bool) (i : Nat) :
    runsFrom (List.replicate n false ++ rest) i none = runsFrom rest (i + n) none := by
  induction n generalizing i with
  | zero => simp
  | succ m ih =>
    simp only [List.replicate_succ, List.cons_append, runsFrom, Bool.false_eq_true, if_false,
      List.append_eq]
    rw [ih]
    congr 1
    omega

theorem runsFrom_replicate_true_append (n : Nat) (rest : List Bool) (i s l : Nat) :
    runsFrom (List.replicate n true ++ rest) i (some (s, l)) =
      runsFrom rest (i + n) (some (s, l + n)) := by
  induction n generalizing i l with
  | zero => simp
  | succ m ih =>
    simp only [List.replicate_succ, List.cons_append, runsFrom, if_true, List.append_eq]
    rw [ih]
    have h1 : i + (m + 1) = i + 1 + m := by omega
    have h2 : l + (m + 1) = l + 1 + m := by omega
    rw [h1, h2]

theorem runsFrom_replicate_false_none (n : Nat) (i : Nat) :
    runsFrom (List.replicate n false) i none = [] := by
  have h := runsFrom_replicate_false_append n [] i
  rw [List.append_nil] at h
  rw [h]
  rfl

theorem runsFrom_replicate_false_some (n : Nat) (i s l : Nat) :
    runsFrom (List.replicate n false) i (some (s, l)) = [(s, l)] := by
  cases n with
  | zero => rfl
  | succ m =>
    simp only [List.replicate_succ, runsFrom, Bool.false_eq_true, if_false]
    rw [runsFrom_replicate_false_none]

theorem rowRuns_emptyRow (cols : Nat) : rowRuns (emptyRow cols) = [] :=
  runsFrom_replicate_false_none cols 0

theorem rowRuns_bandRow (cols rx rw : Nat) (hw : 1 ≤ rw) :
    rowRuns (bandRow cols rx rw) = [(rx, rw)] := by
  unfold rowRuns bandRow
  rw [List.append_assoc, runsFrom_replicate_false_append]
  obtain ⟨rw', rfl⟩ : ∃ rw', rw = rw' + 1 := ⟨rw - 1, by omega⟩
  simp only [List.replicate_succ, List.cons_append, runsFrom, if_true, List.append_eq]
  rw [runsFrom_replicate_true_append, runsFrom_replicate_false_some]
  congr 2
  · omega
  · omega

theorem flushRows_no_runs (g : List (List Bool)) (rest : List (List Bool)) (r : Nat)
    (acc : List Rect) (h : ∀ row ∈ g, rowRuns row = []) :
    flushRows (g ++ rest) r acc = flushRows rest (r + g.length) acc := by
  induction g generalizing r with
  | nil => simp
  | cons row grest ih =>
    simp only [List.cons_append, flushRows, h row (List.mem_cons_self row grest), processRow,
      List.foldl_nil, List.append_eq]
    rw [ih _ (fun q hq => h q (List.mem_cons_of_mem _ hq))]
    congr 1
    simp only [List.length_cons]
    omega

theorem flushRows_all_no_runs (g : List (List Bool)) (r : Nat) (acc : List Rect)
    (h : ∀ row ∈ g, rowRuns row = []) :
    flushRows g r acc = acc.reverse := by
  have h2 := flushRows_no_runs g [] r acc h
  rw [List.append_nil] at h2
  rw [h2]
  rfl

theorem flushRows_band (cols rx rw : Nat) (hw : 1 ≤ rw) (m : Nat)
    (rest : List (List Bool)) (r0 h : Nat) :
    flushRows (List.replicate m (bandRow cols rx rw) ++ rest) (r0 + h)
        [⟨rx, r0, rw, h⟩] =
      flushRows rest (r0 + h + m) [⟨rx, r0, rw, h + m⟩] := by
  induction m generalizing h with
  | zero => simp
  | succ k ih =>
    simp only [List.replicate_succ, List.cons_append, flushRows,
      rowRuns_bandRow cols rx rw hw, processRow, List.foldl_cons, List.foldl_nil,
      addCandidate, extendBack, if_pos rfl, List.append_eq, eq_self_iff_true, and_self,
      if_true]
    have heq : r0 + h + 1 = r0 + (h + 1) := by omega
    rw [heq, ih (h + 1)]
    have e1 : r0 + h + (k + 1) = r0 + (h + 1) + k := by omega
    have e2 : h + (k + 1) = h + 1 + k := by omega
    rw [e1, e2]

theorem getD_emptyRow (cols c : Nat) : (emptyRow cols).getD c false = false := by
  unfold emptyRow
  rw [List.getD_eq_getElem?_getD, List.getElem?_replicate]
  split <;> simp

theorem getD_bandRow (cols rx rw c : Nat) (hx : rx + rw ≤ cols) :
    ((bandRow cols rx rw).getD c false = true) ↔ (rx ≤ c ∧ c < rx + rw) := by
  unfold bandRow
  rw [List.getD_eq_getElem?_getD, List.append_assoc]
  rcases Nat.lt_or_ge c rx with hc | hc
  · rw [List.getElem?_append_left (by simpa using hc), List.getElem?_replicate, if_pos hc]
    simp only [Option.getD_some]
    simp only [Bool.false_eq_true, false_iff]
    omega
  · rw [List.getElem?_append_right (by simpa using hc)]
    simp only [List.length_replicate]
    rcases Nat.lt_or_ge c (rx + rw) with hc2 | hc2
    · rw [List.getElem?_append_left (by simp; omega), List.getElem?_replicate,
        if_pos (by omega : c - rx < rw)]
      simp only [Option.getD_some, true_iff]
      omega
    · rw [List.getElem?_append_right (by simp; omega), List.getElem?_replicate]
      split
      · simp only [Option.getD_some, Bool.false_eq_true, false_iff]
        omega
      · simp only [Option.getD_none, Bool.false_eq_true, false_iff]
        omega

theorem cellAt_rectGrid (rows cols rx ry rw rh : Nat)
    (hx : rx + rw ≤ cols) (hy : ry + rh ≤ rows) (r c : Nat) :
    (cellAt (rectGrid rows cols rx ry rw rh) r c = true) ↔
      (ry ≤ r ∧ r < ry + rh ∧ rx ≤ c ∧ c < rx + rw) := by
  unfold cellAt rectGrid
  simp only [List.getD_eq_getElem?_getD]
  rw [List.append_assoc]
  rcases Nat.lt_or_ge r ry with hr | hr
  · rw [List.getElem?_append_left (by simpa using hr), List.getElem?_replicate, if_pos hr]
    simp only [Option.getD_some]
    rw [← List.getD_eq_getElem?_getD, getD_emptyRow]
    simp only [Bool.false_eq_true, false_iff]
    omega
  · rw [List.getElem?_append_right (by simpa using hr)]
    simp only [List.length_replicate]
    rcases Nat.lt_or_ge r (ry + rh) with hr2 | hr2
    · rw [List.getElem?_append_left (by simp; omega), List.getElem?_replicate,
        if_pos (by omega : r - ry < rh)]
      simp only [Option.getD_some]
      rw [← List.getD_eq_getElem?_getD, getD_bandRow cols rx rw c hx]
      omega
    · rw [List.getElem?_append_right (by simp; omega), List.getElem?_replicate]
      split
      · simp only [Option.getD_some]
        rw [← List.getD_eq_getElem?_getD, getD_emptyRow]
        simp only [Bool.false_eq_true, false_iff]
        omega
      · simp only [Option.getD_none, List.getElem?_nil, Bool.false_eq_true, false_iff]
        omega

theorem rowRuns_map_false (l : List Bool) : rowRuns (l.map (fun _ => false)) = [] := by
  rw [List.map_const']
  exact runsFrom_replicate_false_none _ _

/-- C9: for a grid whose active cells are exactly one rectangle of cells
(any position and size within the grid bounds — the first conjunct
characterizes the touched-cell set), `flush_portions` returns exactly that
one rectangle, the grid is fully inactive afterwards, and a second
`flush_portions` with no intervening `take_pixel` returns `[]`. -/
theorem flushPortions_single_rect (rows cols rowHeight colWidth rx ry rw rh : Nat)
    (hw : 1 ≤ rw) (hh : 1 ≤ rh) (hx : rx + rw ≤ cols) (hy : ry + rh ≤ rows) :
    (∀ r c, (cellAt (rectGrid rows cols rx ry rw rh) r c = true) ↔
        (ry ≤ r ∧ r < ry + rh ∧ rx ≤ c ∧ c < rx + rw)) ∧
    (Portioner.flushPortions ⟨rows, cols, rowHeight, colWidth,
        rectGrid rows cols rx ry rw rh⟩).1 = [⟨rx, ry, rw, rh⟩] ∧
    (∀ row ∈ (Portioner.flushPortions ⟨rows, cols, rowHeight, colWidth,
        rectGrid rows cols rx ry rw rh⟩).2.grid, ∀ b ∈ row, b = false) ∧
    ((Portioner.flushPortions ⟨rows, cols, rowHeight, colWidth,
        rectGrid rows cols rx ry rw rh⟩).2.flushPortions).1 = [] := by
  refine ⟨cellAt_rectGrid rows cols rx ry rw rh hx hy, ?_, ?_, ?_⟩
  · show flushRows (rectGrid rows cols rx ry rw rh) 0 [] = [⟨rx, ry, rw, rh⟩]
    unfold rectGrid
    rw [List.append_assoc]
    rw [flushRows_no_runs _ _ _ _
      (fun row hrow => by rw [List.eq_of_mem_replicate hrow]; exact rowRuns_emptyRow cols)]
    obtain ⟨rh', rfl⟩ : ∃ rh', rh = rh' + 1 := ⟨rh - 1, by omega⟩
    simp only [List.length_replicate, Nat.zero_add, List.replicate_succ, List.cons_append,
      flushRows, rowRuns_bandRow cols rx rw hw, processRow, List.foldl_cons, List.foldl_nil,
      addCandidate, extendBack]
    have hb := flushRows_band cols rx rw hw rh'
      (List.replicate (rows - (ry + (rh' + 1))) (emptyRow cols)) ry 1
    show flushRows (List.replicate rh' (bandRow cols rx rw) ++
        List.replicate (rows - (ry + (rh' + 1))) (emptyRow cols)) (ry + 1)
        [⟨rx, ry, rw, 1⟩] = [⟨rx, ry, rw, rh' + 1⟩]
    rw [hb]
    rw [flushRows_all_no_runs _ _ _
      (fun row hrow => by rw [List.eq_of_mem_replicate hrow]; exact rowRuns_emptyRow cols)]
    simp only [List.reverse_cons, List.reverse_nil, List.nil_append]
    rw [show 1 + rh' = rh' + 1 from by omega]
  · intro row hrow b hb
    have hrow2 : row ∈ (rectGrid rows cols rx ry rw rh).map
        (fun q => q.map (fun _ => false)) := hrow
    rw [List.mem_map] at hrow2
    obtain ⟨orig, _, rfl⟩ := hrow2
    rw [List.mem_map] at hb
    obtain ⟨_, _, rfl⟩ := hb
    rfl
  · show flushRows ((rectGrid rows cols rx ry rw rh).map
        (fun q => q.map (fun _ => false))) 0 [] = []
    rw [flushRows_all_no_runs _ _ _ ?_]
    · rfl
    · intro row hrow
      rw [List.mem_map] at hrow
      obtain ⟨orig, _, rfl⟩ := hrow
      exact rowRuns_map_false orig

/-- Concrete witness for `flushPortions_single_rect`: a 4×5 grid with the
cell rectangle `[1, 1+2) × [1, 1+3)`. -/
theorem flushPortions_single_rect_witness :
    ((1 : Nat) ≤ 2 ∧ (1 : Nat) ≤ 3 ∧ 1 + 2 ≤ 5 ∧ 1 + 3 ≤ 4) ∧
    ((∀ r c, (cellAt (rectGrid 4 5 1 1 2 3) r c = true) ↔
        (1 ≤ r ∧ r < 1 + 3 ∧ 1 ≤ c ∧ c < 1 + 2)) ∧
    (Portioner.flushPortions ⟨4, 5, 8, 8, rectGrid 4 5 1 1 2 3⟩).1 = [⟨1, 1, 2, 3⟩] ∧
    (∀ row ∈ (Portioner.flushPortions ⟨4, 5, 8, 8, rectGrid 4 5 1 1 2 3⟩).2.grid,
        ∀ b ∈ row, b = false) ∧
    ((Portioner.flushPortions ⟨4, 5, 8, 8, rectGrid 4 5 1 1 2 3⟩).2.flushPortions).1 = []) :=
  ⟨by decide, flushPortions_single_rect 4 5 8 8 1 1 2 3
    (by decide) (by decide) (by decide) (by decide)⟩

end PortionRenderer

namespace PortionRenderer

/-- `RgbaPixel` from src/portion-renderer/src/lib.rs (u8 fields as Nat). -/
structure RgbaPixel where
  r : Nat
  g : Nat
  b : Nat
  a : Nat
deriving DecidableEq, Repr

/-- `PIXEL_BLANK` from src/portion-renderer/src/lib.rs. -/
def pixelBlank : RgbaPixel := ⟨0, 0, 0, 0⟩

/-- `Texture<T>` from src/portion-renderer/src/lib.rs for `T = u8`:
a flat byte buffer plus declared width and height. -/
structure Texture where
  data : List Nat
  width : Nat
  height : Nat
deriving DecidableEq, Repr

/-- The `Matrix` enum from src/portion-renderer/src/projection.rs
(f32 coefficients modelled as ℚ). -/
inductive QMatrix where
  | Unit : QMatrix
  | Scale (sx sy : ℚ) : QMatrix
  | TranslateXY (tx ty : ℚ) : QMatrix
  | Rotate (cos sin : ℚ) : QMatrix
  | ScaleAndTranslate (sx sy tx ty : ℚ) : QMatrix
  | RotateAndTranslate (cos sin tx ty : ℚ) : QMatrix
  | RotateAndScaleAndTranslate (a0 a1 b0 b1 tx ty : ℚ) : QMatrix
deriving DecidableEq, Repr

/-- `RotateMatrix` from src/portion-renderer/src/projection.rs. -/
structure RotateMatrix where
  cos : ℚ
  sin : ℚ
deriving DecidableEq, Repr

/-- `ComputePoint for RotateMatrix::compute_pt`. -/
def RotateMatrix.computePt (m : RotateMatrix) (x y : ℚ) : ℚ × ℚ :=
  (m.cos * x - m.sin * y, m.sin * x + m.cos * y)

/-- `From<&Matrix> for RotateMatrix` from src/portion-renderer/src/projection.rs:
panics ("Tried converting to the wrong matrix") unless the matrix is the
`Rotate` variant. -/
def rotateMatrixFrom : QMatrix → Option RotateMatrix
  | .Rotate c s => some ⟨c, s⟩
  | _ => none

/-- Modelled from the spec: `TiltedRect::shift_bounds_x` is not present
under src/ (it is called by `move_object_x_by`); per spec §3 a moved tilted
rect is "translated in O(1) … shift all three corners and the bounding rect
by the same delta — no re-derivation of dot products needed since edge
vectors are translation-invariant". -/
def TiltedRect.shiftBoundsX (t : TiltedRect) (d : Int) : TiltedRect :=
  { t with
    ax := t.ax + (d : ℚ),
    bx := t.bx + (d : ℚ),
    cx := t.cx + (d : ℚ),
    boundingRect := { t.boundingRect with x := ((t.boundingRect.x : Int) + d).toNat } }

/-- Modelled from the spec: `TiltedRect::shift_bounds_y`, as for
`shiftBoundsX`. -/
def TiltedRect.shiftBoundsY (t : TiltedRect) (d : Int) : TiltedRect :=
  { t with
    ay := t.ay + (d : ℚ),
    b_y := t.b_y + (d : ℚ),
    cy := t.cy + (d : ℚ),
    boundingRect := { t.boundingRect with y := ((t.boundingRect.y : Int) + d).toNat } }

/-- `Transform` from src/portion-renderer/src/lib.rs. -/
structure Transform where
  matrix : QMatrix
  bounds : TiltedRect
deriving DecidableEq, Repr

/-- `Object` from src/portion-renderer/src/lib.rs. -/
structure Object where
  textureColor : Option RgbaPixel
  textureIndex : Nat
  transform : Option Transform
  layerIndex : Nat
  currentBounds : Rect
  previousBounds : Rect
  initialRender : Bool
deriving DecidableEq, Repr

/-- `GetRectangularBounds for Object::get_bounds` from
src/portion-renderer/src/lib.rs: the tilted bounding rect when a transform
is present, else `current_bounds`. -/
def Object.getBounds (o : Object) : Rect :=
  match o.transform with
  | some t => t.bounds.boundingRect
  | none => o.currentBounds

/-- `AboveRegions` from src/portion-renderer/src/lib.rs. -/
structure AboveRegions where
  aboveMyCurrent : List Rect
  aboveMyPrevious : List Rect
deriving DecidableEq, Repr

/-- `BelowRegion` from src/portion-renderer/src/lib.rs. -/
structure BelowRegion where
  region : Rect
  regionBelongsTo : Nat
deriving DecidableEq, Repr

/-- `BelowRegions` from src/portion-renderer/src/lib.rs. -/
structure BelowRegions where
  belowMyPrevious : List BelowRegion
deriving DecidableEq, Repr

/-- `should_skip_point` from src/portion-renderer/src/bounds.rs. -/
def shouldSkipPoint (skipRegions : List Rect) (x y : Nat) : Bool :=
  skipRegions.any (fun r => r.containsU32 x y)

/-- `PortionRenderer<u8>` from src/portion-renderer/src/lib.rs.  The
`pixel_format` enum field is dropped (it only determines
`indices_per_pixel`, which is kept). -/
structure Renderer where
  pixelBuffer : List Nat
  clearBuffer : List Nat
  portioner : Portioner
  width : Nat
  height : Nat
  pitch : Nat
  indicesPerPixel : Nat
  textures : Tightvec.TightVec Texture
  layers : List Layer
  objects : Tightvec.TightVec Object
deriving DecidableEq, Repr

/-- The `get_red_index!` macro from src/portion-renderer/src/lib.rs:
`y * (w * indices_per_pixel) + x * indices_per_pixel`. -/
def getRedIndex (x y w ipp : Nat) : Nat := y * (w * ipp) + x * ipp

/-- A single `Vec<u8>` element assignment `buf[i] = v`: panics (`none`)
when out of range. -/
def setByte (buf : List Nat) (i v : Nat) : Option (List Nat) :=
  if i < buf.length then some (buf.set i v) else none

/-- The four consecutive byte stores `buf[i] = p.r; … buf[i+3] = p.a`
performed by the draw/clear loops. -/
def writePixel (buf : List Nat) (redIndex : Nat) (p : RgbaPixel) : Option (List Nat) := do
  let b0 ← setByte buf redIndex p.r
  let b1 ← setByte b0 (redIndex + 1) p.g
  let b2 ← setByte b1 (redIndex + 2) p.b
  setByte b2 (redIndex + 3) p.a

/-- Option-monadic fold: runs `f` on each element in order, aborting on the
first `none` (the shape of every pixel loop here, whose body can panic). -/
def optFold {α σ : Type} (f : α → σ → Option σ) : List α → σ → Option σ
  | [], s => some s
  | x :: rest, s =>
    match f x s with
    | none => none
    | some s2 => optFold f rest s2

/-- The row-major traversal `for i in min_y..max_y { for j in min_x..max_x }`
as a list of `(i, j)` pairs. -/
def rangePairs (minY maxY minX maxX : Nat) : List (Nat × Nat) :=
  (List.range' minY (maxY - minY)).foldr
    (fun i acc => ((List.range' minX (maxX - minX)).map (fun j => (i, j))) ++ acc) []

/-- Modelled from the spec: the nearest-neighbour samplers
`interpolate_nearest` / `interpolate_nearest_pixel` are not present under
src/ (they are called by the rotated draw paths); spec §4.4 describes them
as nearest-neighbour texture/colour lookups returning the caller-supplied
default when the coordinate misses.  They are abstracted as function
parameters — no claim settled here depends on the sampled pixel values. -/
structure Sampler where
  interpolateNearest : List Nat → Nat → Nat → ℚ → ℚ → RgbaPixel → RgbaPixel
  interpolateNearestPixel : RgbaPixel → Nat → Nat → ℚ → ℚ → RgbaPixel → RgbaPixel

end PortionRenderer

namespace PortionRenderer

/-- Overwrite object slot `oi` through `f` (the effect of a
`&mut self.objects[object_index]` field assignment; call sites only reach
this with `oi` in range). -/
def updateObject (s : Renderer) (oi : Nat) (f : Object → Object) : Renderer :=
  match s.objects.buf[oi]? with
  | some o => { s with objects := ⟨s.objects.buf.set oi (f o), s.objects.next⟩ }
  | none => s

/-- `PortionRenderer::set_object_updated_on_layer` from
src/portion-renderer/src/lib.rs: push the object index onto the layer's
`objects` and `updates` lists. -/
def setObjectUpdatedOnLayer (s : Renderer) (objectIndex layerIndex : Nat) : Option Renderer :=
  match s.layers[layerIndex]? with
  | none => none
  | some l =>
    let l2 := { l with
      objects := l.objects ++ [objectIndex],
      updates := l.updates ++ [objectIndex] }
    some { s with layers := s.layers.set layerIndex l2 }

/-- `PortionRenderer::set_layer_update` from src/portion-renderer/src/lib.rs. -/
def setLayerUpdate (s : Renderer) (objectIndex : Nat) : Option Renderer :=
  match s.objects.buf[objectIndex]? with
  | none => none
  | some obj =>
    match s.layers[obj.layerIndex]? with
    | none => none
    | some l =>
      let l2 := { l with updates := l.updates ++ [objectIndex] }
      some { s with layers := s.layers.set obj.layerIndex l2 }

/-- `PortionRenderer::create_object` from src/portion-renderer/src/lib.rs. -/
def createObject (s : Renderer) (layerIndex : Nat) (bounds : Rect)
    (texture : Option Texture) (color : Option RgbaPixel) : Option (Nat × Renderer) :=
  let p :=
    match texture with
    | some txt =>
      let r := s.textures.insert txt
      (r.1, { s with textures := r.2 })
    | none => (0, s)
  let q := Layer.getOrMakeLayer p.2.layers layerIndex
  let s2 := { p.2 with layers := q.2 }
  let newObject : Object :=
    { textureColor := color, transform := none, layerIndex := q.1,
      textureIndex := p.1, currentBounds := bounds,
      previousBounds := bounds, initialRender := true }
  let r2 := s2.objects.insert newObject
  let s3 := { s2 with objects := r2.2 }
  match setObjectUpdatedOnLayer s3 r2.1 q.1 with
  | none => none
  | some s4 => some (r2.1, s4)

/-- The per-layer-object body of `get_regions_above_object`: intersect each
object's bounds with the current and previous footprints. -/
def aboveFromLayerObjects (s : Renderer) (cur prev : Rect) :
    List Nat → AboveRegions → Option AboveRegions
  | [], acc => some acc
  | oi :: rest, acc =>
    match s.objects.buf[oi]? with
    | none => none
    | some lo =>
      let acc1 :=
        match lo.getBounds.intersection cur with
        | some ix => { acc with aboveMyCurrent := acc.aboveMyCurrent ++ [ix] }
        | none => acc
      let acc2 :=
        match lo.getBounds.intersection prev with
        | some ix => { acc1 with aboveMyPrevious := acc1.aboveMyPrevious ++ [ix] }
        | none => acc1
      aboveFromLayerObjects s cur prev rest acc2

/-- The layer loop of `get_regions_above_object`. -/
def aboveFromLayers (s : Renderer) (cur prev : Rect) :
    List Layer → AboveRegions → Option AboveRegions
  | [], acc => some acc
  | l :: rest, acc =>
    match aboveFromLayerObjects s cur prev l.objects acc with
    | none => none
    | some acc2 => aboveFromLayers s cur prev rest acc2

/-- `PortionRenderer::get_regions_above_object` from
src/portion-renderer/src/lib.rs: intersect every object on a strictly
higher layer with this object's current (`get_bounds`) and previous
footprints. -/
def getRegionsAboveObject (s : Renderer) (objectIndex layerIndex : Nat) :
    Option AboveRegions :=
  match s.objects.buf[objectIndex]? with
  | none => none
  | some obj =>
    aboveFromLayers s obj.getBounds obj.previousBounds
      (s.layers.drop (layerIndex + 1)) ⟨[], []⟩

/-- The per-layer-object body of `get_regions_below_object`. -/
def belowFromLayerObjects (s : Renderer) (prev : Rect) :
    List Nat → List BelowRegion → Option (List BelowRegion)
  | [], acc => some acc
  | oi :: rest, acc =>
    match s.objects.buf[oi]? with
    | none => none
    | some lo =>
      let acc1 :=
        match lo.getBounds.intersection prev with
        | some ix => acc ++ [⟨ix, oi⟩]
        | none => acc
      belowFromLayerObjects s prev rest acc1

/-- The (reversed) layer loop of `get_regions_below_object`. -/
def belowFromLayers (s : Renderer) (prev : Rect) :
    List Layer → List BelowRegion → Option (List BelowRegion)
  | [], acc => some acc
  | l :: rest, acc =>
    match belowFromLayerObjects s prev l.objects acc with
    | none => none
    | some acc2 => belowFromLayers s prev rest acc2

/-- `PortionRenderer::get_regions_below_object` from
src/portion-renderer/src/lib.rs: nothing to do on the bottom layer;
otherwise walk the lower layers in reverse order and record which object
each intersection with the previous footprint belongs to. -/
def getRegionsBelowObject (s : Renderer) (objectIndex layerIndex : Nat) :
    Option BelowRegions :=
  if layerIndex = 0 then some ⟨[]⟩
  else
    match s.objects.buf[objectIndex]? with
    | none => none
    | some obj =>
      match belowFromLayers s obj.previousBounds ((s.layers.take layerIndex).reverse) [] with
      | none => none
      | some regs => some ⟨regs⟩

/-- `PortionRenderer::move_object_x_by` from src/portion-renderer/src/lib.rs:
a negative delta is applied only when `current_bounds.x >= |by|` (and only
then is the layer marked dirty); a cached tilted bound is always shifted. -/
def moveObjectXBy (s : Renderer) (objectIndex : Nat) (d : Int) : Option Renderer :=
  match s.objects.buf[objectIndex]? with
  | none => none
  | some obj =>
    let step1 : Option Renderer :=
      if d < 0 then
        let k := (-d).toNat
        if obj.currentBounds.x ≥ k then
          let s1 := updateObject s objectIndex (fun o =>
            { o with currentBounds := { o.currentBounds with x := o.currentBounds.x - k } })
          setLayerUpdate s1 objectIndex
        else some s
      else
        let s1 := updateObject s objectIndex (fun o =>
          { o with currentBounds := { o.currentBounds with x := o.currentBounds.x + d.toNat } })
        setLayerUpdate s1 objectIndex
    match step1 with
    | none => none
    | some s2 =>
      some (updateObject s2 objectIndex (fun o =>
        match o.transform with
        | some t => { o with transform := some { t with bounds := t.bounds.shiftBoundsX d } }
        | none => o))

/-- `PortionRenderer::move_object_y_by` from src/portion-renderer/src/lib.rs. -/
def moveObjectYBy (s : Renderer) (objectIndex : Nat) (d : Int) : Option Renderer :=
  match s.objects.buf[objectIndex]? with
  | none => none
  | some obj =>
    let step1 : Option Renderer :=
      if d < 0 then
        let k := (-d).toNat
        if obj.currentBounds.y ≥ k then
          let s1 := updateObject s objectIndex (fun o =>
            { o with currentBounds := { o.currentBounds with y := o.currentBounds.y - k } })
          setLayerUpdate s1 objectIndex
        else some s
      else
        let s1 := updateObject s objectIndex (fun o =>
          { o with currentBounds := { o.currentBounds with y := o.currentBounds.y + d.toNat } })
        setLayerUpdate s1 objectIndex
    match step1 with
    | none => none
    | some s2 =>
      some (updateObject s2 objectIndex (fun o =>
        match o.transform with
        | some t => { o with transform := some { t with bounds := t.bounds.shiftBoundsY d } }
        | none => o))

/-- `PortionRenderer::get_pixel_from_object_at_rotated` from
src/portion-renderer/src/lib.rs: shift the query point by the current
bounds origin, run it through the cached rotate matrix, and sample the
texture (nearest-neighbour, default `PIXEL_BLANK`); always returns `Some`. -/
def getPixelFromObjectAtRotated (sampler : Sampler) (s : Renderer) (objectIndex : Nat)
    (t : Transform) (x y : Nat) : Except Unit (Option RgbaPixel) :=
  match rotateMatrixFrom t.matrix with
  | none => .error ()
  | some rm =>
    match s.objects.buf[objectIndex]? with
    | none => .error ()
    | some obj =>
      match s.textures.buf[obj.textureIndex]? with
      | none => .error ()
      | some texture =>
        let xShift := (x : ℚ) - (obj.currentBounds.x : ℚ)
        let yShift := (y : ℚ) - (obj.currentBounds.y : ℚ)
        let p := rm.computePt xShift yShift
        .ok (some (sampler.interpolateNearest texture.data texture.width texture.height
          p.1 p.2 pixelBlank))

/-- `PortionRenderer::get_pixel_from_object_at` from
src/portion-renderer/src/lib.rs.  `.error ()` models the `panic!` (fired
when `x < current_bounds.x || y < current_bounds.y`) and out-of-range `Vec`
indexing; a texture slice read past the end of the texture buffer returns
`.ok none`. -/
def getPixelFromObjectAt (sampler : Sampler) (s : Renderer) (objectIndex : Nat)
    (x y : Nat) : Except Unit (Option RgbaPixel) :=
  match s.objects.buf[objectIndex]? with
  | none => .error ()
  | some obj =>
    match obj.transform with
    | some t => getPixelFromObjectAtRotated sampler s objectIndex t x y
    | none =>
      match obj.textureColor with
      | some color => .ok (some color)
      | none =>
        match s.textures.buf[obj.textureIndex]? with
        | none => .error ()
        | some texture =>
          let cb := obj.currentBounds
          if x < cb.x ∨ y < cb.y then .error ()
          else
            let localX := x - cb.x
            let localY := y - cb.y
            let redIndex := getRedIndex localX localY cb.w s.indicesPerPixel
            if redIndex + 4 ≤ texture.data.length then
              .ok (some ⟨texture.data.getD redIndex 0, texture.data.getD (redIndex + 1) 0,
                texture.data.getD (redIndex + 2) 0, texture.data.getD (redIndex + 3) 0⟩)
            else .ok none

/-- The region loop of `clear_pixels_from_below_object`: at the first below
region containing `(x, y)`, resample that object's pixel there; a missing
or zero-alpha pixel yields `false` (fall through to the clear buffer),
otherwise the pixel is written and `true` is returned. -/
def clearBelowGo (sampler : Sampler) (pbRedIndex x y : Nat) (s : Renderer) :
    List BelowRegion → Option (Bool × Renderer)
  | [] => some (false, s)
  | below :: rest =>
    if below.region.containsU32 x y then
      match getPixelFromObjectAt sampler s below.regionBelongsTo x y with
      | .error _ => none
      | .ok none => some (false, s)
      | .ok (some pixel) =>
        if pixel.a = 0 then some (false, s)
        else
          match writePixel s.pixelBuffer pbRedIndex pixel with
          | none => none
          | some buf => some (true, { s with pixelBuffer := buf })
    else clearBelowGo sampler pbRedIndex x y s rest

/-- `PortionRenderer::clear_pixels_from_below_object` from
src/portion-renderer/src/lib.rs. -/
def clearPixelsFromBelowObject (sampler : Sampler) (s : Renderer)
    (pbRedIndex x y : Nat) (skipBelow : BelowRegions) : Option (Bool × Renderer) :=
  clearBelowGo sampler pbRedIndex x y s skipBelow.belowMyPrevious

/-- Copy the four clear-buffer bytes at `redIndex` into the pixel buffer
(the fall-through path of `clear_object_previous_bounds`). -/
def copyFromClear (s : Renderer) (redIndex : Nat) : Option Renderer :=
  match s.clearBuffer[redIndex]?, s.clearBuffer[redIndex + 1]?,
      s.clearBuffer[redIndex + 2]?, s.clearBuffer[redIndex + 3]? with
  | some v0, some v1, some v2, some v3 =>
    (writePixel s.pixelBuffer redIndex ⟨v0, v1, v2, v3⟩).map
      (fun buf => { s with pixelBuffer := buf })
  | _, _, _, _ => none

/-- `PortionRenderer::clear_object_previous_bounds` from
src/portion-renderer/src/lib.rs: for every pixel of the previous footprint
not under an `above_my_previous` region, report it to the portioner, then
either restore it from a below object or copy the clear buffer. -/
def clearObjectPreviousBounds (sampler : Sampler) (s : Renderer)
    (skipAbove : AboveRegions) (skipBelow : BelowRegions)
    (minY maxY minX maxX : Nat) : Option Renderer :=
  optFold (fun (p : Nat × Nat) st =>
      if shouldSkipPoint skipAbove.aboveMyPrevious p.2 p.1 then some st
      else
        let st1 := { st with portioner := st.portioner.takePixel p.2 p.1 }
        let redIndex := getRedIndex p.2 p.1 st1.width st1.indicesPerPixel
        if skipBelow.belowMyPrevious.isEmpty then copyFromClear st1 redIndex
        else
          match clearPixelsFromBelowObject sampler st1 redIndex p.2 p.1 skipBelow with
          | none => none
          | some (true, st2) => some st2
          | some (false, st2) => copyFromClear st2 redIndex)
    (rangePairs minY maxY minX maxX) s

/-- `PortionRenderer::draw_pixel_rotated` from src/portion-renderer/src/lib.rs. -/
def drawPixelRotated (sampler : Sampler) (s : Renderer) (pixel : RgbaPixel)
    (skipAbove : AboveRegions) (matrix : QMatrix)
    (minY maxY minX maxX : Nat) (shiftX shiftY : ℚ) (width height : Nat) :
    Option Renderer :=
  match rotateMatrixFrom matrix with
  | none => none
  | some rm =>
    optFold (fun (p : Nat × Nat) st =>
        if shouldSkipPoint skipAbove.aboveMyCurrent p.2 p.1 then some st
        else
          let st1 := { st with portioner := st.portioner.takePixel p.2 p.1 }
          let pq := rm.computePt ((p.2 : ℚ) - shiftX) ((p.1 : ℚ) - shiftY)
          let pix := sampler.interpolateNearestPixel pixel width height pq.1 pq.2 pixelBlank
          if pix.a = 0 then some st1
          else
            let redIndex := getRedIndex p.2 p.1 st1.width st1.indicesPerPixel
            (writePixel st1.pixelBuffer redIndex pix).map
              (fun buf => { st1 with pixelBuffer := buf }))
      (rangePairs minY maxY minX maxX) s

/-- `PortionRenderer::draw_pixel` from src/portion-renderer/src/lib.rs:
flat-colour fill of `[min_x, max_x) × [min_y, max_y)` skipping
`above_my_current` regions; with a transform, defer to the rotated variant
over the tilted bounding rect. -/
def drawPixel (sampler : Sampler) (s : Renderer) (pixel : RgbaPixel)
    (skipAbove : AboveRegions) (transform : Option Transform)
    (minY maxY minX maxX width height : Nat) : Option Renderer :=
  match transform with
  | some t =>
    let tb := t.bounds.boundingRect
    drawPixelRotated sampler s pixel skipAbove t.matrix
      tb.y (tb.y + tb.h) tb.x (tb.x + tb.w) (minX : ℚ) (minY : ℚ) width height
  | none =>
    optFold (fun (p : Nat × Nat) st =>
        if shouldSkipPoint skipAbove.aboveMyCurrent p.2 p.1 then some st
        else
          let st1 := { st with portioner := st.portioner.takePixel p.2 p.1 }
          let redIndex := getRedIndex p.2 p.1 st1.width st1.indicesPerPixel
          (writePixel st1.pixelBuffer redIndex pixel).map
            (fun buf => { st1 with pixelBuffer := buf }))
      (rangePairs minY maxY minX maxX) s

/-- `PortionRenderer::draw_exact_rotated` from src/portion-renderer/src/lib.rs. -/
def drawExactRotated (sampler : Sampler) (s : Renderer) (textureIndex : Nat)
    (skipAbove : AboveRegions) (matrix : QMatrix)
    (minY maxY minX maxX : Nat) (shiftX shiftY : ℚ) : Option Renderer :=
  match rotateMatrixFrom matrix with
  | none => none
  | some rm =>
    match s.textures.buf[textureIndex]? with
    | none => none
    | some texture =>
      optFold (fun (p : Nat × Nat) st =>
          if shouldSkipPoint skipAbove.aboveMyCurrent p.2 p.1 then some st
          else
            let st1 := { st with portioner := st.portioner.takePixel p.2 p.1 }
            let pq := rm.computePt ((p.2 : ℚ) - shiftX) ((p.1 : ℚ) - shiftY)
            let pix := sampler.interpolateNearest texture.data texture.width texture.height
              pq.1 pq.2 pixelBlank
            if pix.a = 0 then some st1
            else
              let redIndex := getRedIndex p.2 p.1 st1.width st1.indicesPerPixel
              (writePixel st1.pixelBuffer redIndex pix).map
                (fun buf => { st1 with pixelBuffer := buf }))
        (rangePairs minY maxY minX maxX) s

/-- `PortionRenderer::draw_exact` from src/portion-renderer/src/lib.rs:
copy the texture bytes sequentially over the bounds, skipping zero-alpha
texels and `above_my_current` regions (the texture read cursor advances on
every covered pixel); with a transform, defer to the rotated variant. -/
def drawExact (sampler : Sampler) (s : Renderer) (textureIndex : Nat)
    (skipAbove : AboveRegions) (transform : Option Transform)
    (minY maxY minX maxX : Nat) : Option Renderer :=
  match transform with
  | some t =>
    let tb := t.bounds.boundingRect
    drawExactRotated sampler s textureIndex skipAbove t.matrix
      tb.y (tb.y + tb.h) tb.x (tb.x + tb.w) (minX : ℚ) (minY : ℚ)
  | none =>
    match s.textures.buf[textureIndex]? with
    | none => none
    | some texture =>
      (optFold (fun (p : Nat × Nat) (acc : Renderer × Nat) =>
          match texture.data[acc.2 + 3]? with
          | none => none
          | some alpha =>
            if alpha = 0 then some (acc.1, acc.2 + s.indicesPerPixel)
            else if shouldSkipPoint skipAbove.aboveMyCurrent p.2 p.1 then
              some (acc.1, acc.2 + s.indicesPerPixel)
            else
              let st1 := { acc.1 with portioner := acc.1.portioner.takePixel p.2 p.1 }
              let redIndex := getRedIndex p.2 p.1 st1.width st1.indicesPerPixel
              let pix : RgbaPixel := ⟨texture.data.getD acc.2 0, texture.data.getD (acc.2 + 1) 0,
                texture.data.getD (acc.2 + 2) 0, alpha⟩
              (writePixel st1.pixelBuffer redIndex pix).map
                (fun buf => ({ st1 with pixelBuffer := buf }, acc.2 + s.indicesPerPixel)))
        (rangePairs minY maxY minX maxX) (s, 0)).map Prod.fst

/-- The paint half of `draw_object` (everything after the clear/mark step):
re-read the current bounds, then flat-colour or texture paint, then
`previous_bounds := get_bounds()`.  `objectColor`/`textureIndex` are the
values `draw_object` read at entry. -/
def paintPhase (sampler : Sampler) (s : Renderer) (objectIndex : Nat)
    (skipAbove : AboveRegions) (objectColor : Option RgbaPixel) (textureIndex : Nat) :
    Option Renderer :=
  match s.objects.buf[objectIndex]? with
  | none => none
  | some obj1 =>
    let nb := obj1.currentBounds
    match objectColor with
    | some color =>
      if color.a = 0 then
        some (updateObject s objectIndex (fun o => { o with previousBounds := o.getBounds }))
      else
        match drawPixel sampler s color skipAbove obj1.transform
            nb.y (nb.y + nb.h) nb.x (nb.x + nb.w) nb.w nb.h with
        | none => none
        | some s2 =>
          some (updateObject s2 objectIndex (fun o => { o with previousBounds := o.getBounds }))
    | none =>
      match drawExact sampler s textureIndex skipAbove obj1.transform
          nb.y (nb.y + nb.h) nb.x (nb.x + nb.w) with
      | none => none
      | some s2 =>
        some (updateObject s2 objectIndex (fun o => { o with previousBounds := o.getBounds }))

/-- `PortionRenderer::draw_object` from src/portion-renderer/src/lib.rs:
read the object's previous bounds, first-render flag, texture index and
colour; clear the previous footprint unless this is the first render (in
which case only drop the flag); then paint. -/
def drawObject (sampler : Sampler) (s : Renderer) (objectIndex : Nat)
    (skipAbove : AboveRegions) (skipBelow : BelowRegions) : Option Renderer :=
  match s.objects.buf[objectIndex]? with
  | none => none
  | some obj =>
    let pb := obj.previousBounds
    let step1 : Option Renderer :=
      if obj.initialRender then
        some (updateObject s objectIndex (fun o => { o with initialRender := false }))
      else
        clearObjectPreviousBounds sampler s skipAbove skipBelow
          pb.y (pb.y + pb.h) pb.x (pb.x + pb.w)
    match step1 with
    | none => none
    | some s1 => paintPhase sampler s1 objectIndex skipAbove obj.textureColor obj.textureIndex

/-- The first loop of `draw_all_layers`: drain every layer's `updates` into
`(layer_index, object_index)` pairs, layer by layer, `i` being the index of
the head layer. -/
def drainLoop : List Layer → Nat → (List (Nat × Nat) × List Layer)
  | [], _ => ([], [])
  | l :: rest, i =>
    let r := drainLoop rest (i + 1)
    (l.updates.map (fun o => (i, o)) ++ r.1, { l with updates := [] } :: r.2)

/-- The dirty entries of a layer list: for each layer (at its position `i`
counted from `i0`), one `(i, object_index)` pair per `updates` entry, in
order. -/
def dirtyEntriesFrom : List Layer → Nat → List (Nat × Nat)
  | [], _ => []
  | l :: rest, i => l.updates.map (fun o => (i, o)) ++ dirtyEntriesFrom rest (i + 1)

/-- The dirty entries of a layer list, positions counted from 0. -/
def dirtyEntries (layers : List Layer) : List (Nat × Nat) := dirtyEntriesFrom layers 0

/-- All layers with their `updates` lists emptied. -/
def clearUpdates (layers : List Layer) : List Layer :=
  layers.map (fun l => { l with updates := [] })

/-- One drained `(layer_index, object_index)` pair of the second loop of
`draw_all_layers`: compute the above/below occlusion regions, then draw. -/
def drawStep (sampler : Sampler) (p : Nat × Nat) (st : Renderer) : Option Renderer :=
  match getRegionsAboveObject st p.2 p.1 with
  | none => none
  | some above =>
    match getRegionsBelowObject st p.2 p.1 with
    | none => none
    | some below => drawObject sampler st p.2 above below

/-- `PortionRenderer::draw_all_layers` from src/portion-renderer/src/lib.rs:
drain all dirty lists, then draw each drained `(layer, object)` pair once,
computing its above/below occlusion regions first. -/
def drawAllLayers (sampler : Sampler) (s : Renderer) : Option Renderer :=
  let dr := drainLoop s.layers 0
  optFold (drawStep sampler) dr.1 { s with layers := dr.2 }

end PortionRenderer

namespace PortionRenderer

theorem optFold_proj {α σ τ : Type} (g : σ → τ) (f : α → σ → Option σ)
    (hf : ∀ a t t', f a t = some t' → g t' = g t) :
    ∀ (l : List α) (s s' : σ), optFold f l s = some s' → g s' = g s := by
  intro l
  induction l with
  | nil =>
    intro s s' h
    simp only [optFold, Option.some.injEq] at h
    rw [h]
  | cons x rest ih =>
    intro s s' h
    simp only [optFold] at h
    cases hx : f x s with
    | none => rw [hx] at h; exact absurd h (by simp)
    | some s2 =>
      rw [hx] at h
      exact (ih s2 s' h).trans (hf x s s2 hx)

theorem updateObject_layers (s : Renderer) (oi : Nat) (f : Object → Object) :
    (updateObject s oi f).layers = s.layers := by
  unfold updateObject
  cases s.objects.buf[oi]? <;> rfl

theorem updateObject_get_self (s : Renderer) (oi : Nat) (f : Object → Object)
    (o : Object) (h : s.objects.buf[oi]? = some o) :
    (updateObject s oi f).objects.buf[oi]? = some (f o) := by
  unfold updateObject
  rw [h]
  obtain ⟨hlt, -⟩ := List.getElem?_eq_some.mp h
  exact List.getElem?_set_eq_of_lt (f o) (by simpa using hlt)

theorem updateObject_get_ne (s : Renderer) (oi : Nat) (f : Object → Object)
    (j : Nat) (hne : oi ≠ j) :
    (updateObject s oi f).objects.buf[j]? = s.objects.buf[j]? := by
  unfold updateObject
  cases h : s.objects.buf[oi]? with
  | none => rfl
  | some o => exact List.getElem?_set_ne hne

theorem clearBelowGo_OL (sampler : Sampler) (i x y : Nat) :
    ∀ (lst : List BelowRegion) (s : Renderer) (b : Bool) (s' : Renderer),
      clearBelowGo sampler i x y s lst = some (b, s') →
      s'.objects = s.objects ∧ s'.layers = s.layers := by
  intro lst
  induction lst with
  | nil =>
    intro s b s' h
    simp only [clearBelowGo, Option.some.injEq, Prod.mk.injEq] at h
    rw [← h.2]
    exact ⟨rfl, rfl⟩
  | cons below rest ih =>
    intro s b s' h
    simp only [clearBelowGo] at h
    split at h
    · split at h
      · exact absurd h (by simp)
      · simp only [Option.some.injEq, Prod.mk.injEq] at h
        rw [← h.2]
        exact ⟨rfl, rfl⟩
      · split at h
        · simp only [Option.some.injEq, Prod.mk.injEq] at h
          rw [← h.2]
          exact ⟨rfl, rfl⟩
        · split at h
          · exact absurd h (by simp)
          · simp only [Option.some.injEq, Prod.mk.injEq] at h
            rw [← h.2]
            exact ⟨rfl, rfl⟩
    · exact ih s b s' h

theorem copyFromClear_OL (s : Renderer) (i : Nat) (s' : Renderer)
    (h : copyFromClear s i = some s') :
    s'.objects = s.objects ∧ s'.layers = s.layers := by
  unfold copyFromClear at h
  split at h
  · cases hw : writePixel s.pixelBuffer i _ with
    | none => rw [hw] at h; exact absurd h (by simp)
    | some buf =>
      rw [hw] at h
      simp only [Option.map_some', Option.some.injEq] at h
      rw [← h]
      exact ⟨rfl, rfl⟩
  · exact absurd h (by simp)

end PortionRenderer

namespace PortionRenderer

/-- The projection the pixel loops leave untouched. -/
def objLayers (s : Renderer) : Tightvec.TightVec Object × List Layer := (s.objects, s.layers)

theorem clearObjectPreviousBounds_OL (sampler : Sampler) (s : Renderer)
    (sa : AboveRegions) (sb : BelowRegions) (minY maxY minX maxX : Nat) (s' : Renderer)
    (h : clearObjectPreviousBounds sampler s sa sb minY maxY minX maxX = some s') :
    s'.objects = s.objects ∧ s'.layers = s.layers := by
  have key := optFold_proj objLayers _ ?_ _ _ _ h
  · exact ⟨congrArg Prod.fst key, congrArg Prod.snd key⟩
  · intro a t t' hbody
    dsimp only at hbody
    split at hbody
    · simp only [Option.some.injEq] at hbody
      subst hbody
      rfl
    · split at hbody
      · obtain ⟨h1, h2⟩ := copyFromClear_OL _ _ _ hbody
        simp only [objLayers, h1, h2]
      · split at hbody
        · exact absurd hbody (by simp)
        · rename_i st2 heq
          simp only [Option.some.injEq] at hbody
          obtain ⟨h1, h2⟩ := clearBelowGo_OL sampler _ _ _ _ _ _ _ heq
          rw [← hbody]
          simp only [objLayers, h1, h2]
        · rename_i st2 heq
          obtain ⟨h1, h2⟩ := clearBelowGo_OL sampler _ _ _ _ _ _ _ heq
          obtain ⟨h3, h4⟩ := copyFromClear_OL _ _ _ hbody
          simp only [objLayers, h1, h2, h3, h4]

theorem drawPixelRotated_OL (sampler : Sampler) (s : Renderer) (pixel : RgbaPixel)
    (sa : AboveRegions) (m : QMatrix) (minY maxY minX maxX : Nat) (sx sy : ℚ)
    (w hgt : Nat) (s' : Renderer)
    (h : drawPixelRotated sampler s pixel sa m minY maxY minX maxX sx sy w hgt = some s') :
    s'.objects = s.objects ∧ s'.layers = s.layers := by
  unfold drawPixelRotated at h
  split at h
  · exact absurd h (by simp)
  · have key := optFold_proj objLayers _ ?_ _ _ _ h
    · exact ⟨congrArg Prod.fst key, congrArg Prod.snd key⟩
    · intro a t t' hbody
      dsimp only at hbody
      split at hbody
      · simp only [Option.some.injEq] at hbody
        subst hbody
        rfl
      · split at hbody
        · simp only [Option.some.injEq] at hbody
          subst hbody
          rfl
        · cases hw : writePixel _ _ _ with
          | none => rw [hw] at hbody; exact absurd hbody (by simp)
          | some buf =>
            rw [hw] at hbody
            simp only [Option.map_some', Option.some.injEq] at hbody
            subst hbody
            rfl

theorem drawPixel_OL (sampler : Sampler) (s : Renderer) (pixel : RgbaPixel)
    (sa : AboveRegions) (tr : Option Transform) (minY maxY minX maxX w hgt : Nat)
    (s' : Renderer)
    (h : drawPixel sampler s pixel sa tr minY maxY minX maxX w hgt = some s') :
    s'.objects = s.objects ∧ s'.layers = s.layers := by
  unfold drawPixel at h
  split at h
  · exact drawPixelRotated_OL _ _ _ _ _ _ _ _ _ _ _ _ _ _ h
  · have key := optFold_proj objLayers _ ?_ _ _ _ h
    · exact ⟨congrArg Prod.fst key, congrArg Prod.snd key⟩
    · intro a t t' hbody
      dsimp only at hbody
      split at hbody
      · simp only [Option.some.injEq] at hbody
        subst hbody
        rfl
      · cases hw : writePixel _ _ _ with
        | none => rw [hw] at hbody; exact absurd hbody (by simp)
        | some buf =>
          rw [hw] at hbody
          simp only [Option.map_some', Option.some.injEq] at hbody
          subst hbody
          rfl

theorem drawExactRotated_OL (sampler : Sampler) (s : Renderer) (ti : Nat)
    (sa : AboveRegions) (m : QMatrix) (minY maxY minX maxX : Nat) (sx sy : ℚ)
    (s' : Renderer)
    (h : drawExactRotated sampler s ti sa m minY maxY minX maxX sx sy = some s') :
    s'.objects = s.objects ∧ s'.layers = s.layers := by
  unfold drawExactRotated at h
  split at h
  · exact absurd h (by simp)
  · split at h
    · exact absurd h (by simp)
    · have key := optFold_proj objLayers _ ?_ _ _ _ h
      · exact ⟨congrArg Prod.fst key, congrArg Prod.snd key⟩
      · intro a t t' hbody
        dsimp only at hbody
        split at hbody
        · simp only [Option.some.injEq] at hbody
          subst hbody
          rfl
        · split at hbody
          · simp only [Option.some.injEq] at hbody
            subst hbody
            rfl
          · cases hw : writePixel _ _ _ with
            | none => rw [hw] at hbody; exact absurd hbody (by simp)
            | some buf =>
              rw [hw] at hbody
              simp only [Option.map_some', Option.some.injEq] at hbody
              subst hbody
              rfl

theorem drawExact_OL (sampler : Sampler) (s : Renderer) (ti : Nat)
    (sa : AboveRegions) (tr : Option Transform) (minY maxY minX maxX : Nat)
    (s' : Renderer)
    (h : drawExact sampler s ti sa tr minY maxY minX maxX = some s') :
    s'.objects = s.objects ∧ s'.layers = s.layers := by
  unfold drawExact at h
  split at h
  · exact drawExactRotated_OL _ _ _ _ _ _ _ _ _ _ _ _ h
  · split at h
    · exact absurd h (by simp)
    · cases hfold : optFold
          (fun (p : Nat × Nat) (acc : Renderer × Nat) => _) (rangePairs minY maxY minX maxX)
          (s, 0) with
      | none =>
        rw [hfold] at h
        exact absurd h (by simp)
      | some acc' =>
        rw [hfold] at h
        simp only [Option.map_some', Option.some.injEq] at h
        have key := optFold_proj (fun (acc : Renderer × Nat) => objLayers acc.1) _ ?_ _ _ _ hfold
        · rw [← h]
          exact ⟨congrArg Prod.fst key, congrArg Prod.snd key⟩
        · intro a t t' hbody
          dsimp only at hbody
          split at hbody
          · exact absurd hbody (by simp)
          · split at hbody
            · simp only [Option.some.injEq] at hbody
              subst hbody
              rfl
            · split at hbody
              · simp only [Option.some.injEq] at hbody
                subst hbody
                rfl
              · cases hw : writePixel _ _ _ with
                | none => rw [hw] at hbody; exact absurd hbody (by simp)
                | some buf =>
                  rw [hw] at hbody
                  simp only [Option.map_some', Option.some.injEq] at hbody
                  subst hbody
                  rfl

end PortionRenderer

namespace PortionRenderer

theorem paintPhase_spec (sampler : Sampler) (s : Renderer) (oi : Nat)
    (sa : AboveRegions) (oc : Option RgbaPixel) (ti : Nat) (s' : Renderer)
    (h : paintPhase sampler s oi sa oc ti = some s') :
    s'.layers = s.layers ∧
    ∃ o1, s.objects.buf[oi]? = some o1 ∧
      s'.objects.buf[oi]? = some { o1 with previousBounds := o1.getBounds } := by
  unfold paintPhase at h
  cases hobj : s.objects.buf[oi]? with
  | none => rw [hobj] at h; exact absurd h (by simp)
  | some o1 =>
    rw [hobj] at h
    have final :
        ∀ s2 : Renderer, s2.objects = s.objects → s2.layers = s.layers →
          s' = updateObject s2 oi (fun o => { o with previousBounds := o.getBounds }) →
          s'.layers = s.layers ∧
          ∃ o2, some o1 = some o2 ∧
            s'.objects.buf[oi]? = some { o2 with previousBounds := o2.getBounds } := by
      intro s2 hobjs hlay hs'
      have hobj2 : s2.objects.buf[oi]? = some o1 := by rw [hobjs]; exact hobj
      refine ⟨?_, o1, rfl, ?_⟩
      · rw [hs', updateObject_layers, hlay]
      · rw [hs']
        exact updateObject_get_self s2 oi _ o1 hobj2
    cases oc with
    | some color =>
      dsimp only at h
      by_cases hca : color.a = 0
      · rw [if_pos hca] at h
        simp only [Option.some.injEq] at h
        exact final s rfl rfl h.symm
      · rw [if_neg hca] at h
        cases hdp : drawPixel sampler s color sa o1.transform o1.currentBounds.y
            (o1.currentBounds.y + o1.currentBounds.h) o1.currentBounds.x
            (o1.currentBounds.x + o1.currentBounds.w) o1.currentBounds.w o1.currentBounds.h with
        | none => rw [hdp] at h; exact absurd h (by simp)
        | some s2 =>
          rw [hdp] at h
          simp only [Option.some.injEq] at h
          obtain ⟨h1, h2⟩ := drawPixel_OL _ _ _ _ _ _ _ _ _ _ _ _ hdp
          exact final s2 h1 h2 h.symm
    | none =>
      dsimp only at h
      cases hde : drawExact sampler s ti sa o1.transform o1.currentBounds.y
          (o1.currentBounds.y + o1.currentBounds.h) o1.currentBounds.x
          (o1.currentBounds.x + o1.currentBounds.w) with
      | none => rw [hde] at h; exact absurd h (by simp)
      | some s2 =>
        rw [hde] at h
        simp only [Option.some.injEq] at h
        obtain ⟨h1, h2⟩ := drawExact_OL _ _ _ _ _ _ _ _ _ _ hde
        exact final s2 h1 h2 h.symm

end PortionRenderer

namespace PortionRenderer

/-- C3: after every completed `draw_object` call, the object's
`previous_bounds` equals its drawn footprint (the axis-aligned bounding
rect of its tilted bounds when a transform is present, otherwise its
`current_bounds`); its `initial_render` flag is false afterwards; and
the clear-previous-bounds pass runs exactly when `initial_render` was
false at entry (on a first render only the flag is dropped). -/
theorem drawObject_spec (sampler : Sampler) (s : Renderer) (oi : Nat)
    (sa : AboveRegions) (sb : BelowRegions) (s' : Renderer)
    (h : drawObject sampler s oi sa sb = some s') :
    ∃ obj obj', s.objects.buf[oi]? = some obj ∧ s'.objects.buf[oi]? = some obj' ∧
      obj'.previousBounds = (match obj.transform with
        | some t => t.bounds.boundingRect
        | none => obj.currentBounds) ∧
      obj'.initialRender = false ∧
      (obj.initialRender = true →
        drawObject sampler s oi sa sb =
          paintPhase sampler
            (updateObject s oi (fun o => { o with initialRender := false }))
            oi sa obj.textureColor obj.textureIndex) ∧
      (obj.initialRender = false →
        drawObject sampler s oi sa sb =
          (clearObjectPreviousBounds sampler s sa sb obj.previousBounds.y
            (obj.previousBounds.y + obj.previousBounds.h) obj.previousBounds.x
            (obj.previousBounds.x + obj.previousBounds.w)).bind
          (fun s1 => paintPhase sampler s1 oi sa obj.textureColor obj.textureIndex)) := by
  unfold drawObject at h
  cases hobj : s.objects.buf[oi]? with
  | none => rw [hobj] at h; exact absurd h (by simp)
  | some obj0 =>
    rw [hobj] at h
    dsimp only at h
    by_cases hfl : obj0.initialRender = true
    · rw [if_pos hfl] at h
      obtain ⟨hlay, o1, ho1, hget⟩ := paintPhase_spec _ _ _ _ _ _ _ h
      have hup : (updateObject s oi (fun o => { o with initialRender := false })).objects.buf[oi]?
          = some { obj0 with initialRender := false } :=
        updateObject_get_self s oi _ obj0 hobj
      rw [hup] at ho1
      simp only [Option.some.injEq] at ho1
      refine ⟨obj0, { o1 with previousBounds := o1.getBounds }, rfl, hget, ?_, ?_, ?_, ?_⟩
      · rw [← ho1]
        rfl
      · rw [← ho1]
      · intro _
        unfold drawObject
        rw [hobj]
        dsimp only
        rw [if_pos hfl]
      · intro hc
        rw [hfl] at hc
        cases hc
    · rw [if_neg hfl] at h
      cases hclear : clearObjectPreviousBounds sampler s sa sb obj0.previousBounds.y
          (obj0.previousBounds.y + obj0.previousBounds.h) obj0.previousBounds.x
          (obj0.previousBounds.x + obj0.previousBounds.w) with
      | none => rw [hclear] at h; exact absurd h (by simp)
      | some s1 =>
        rw [hclear] at h
        dsimp only at h
        obtain ⟨hco, hcl⟩ := clearObjectPreviousBounds_OL _ _ _ _ _ _ _ _ _ hclear
        obtain ⟨hlay, o1, ho1, hget⟩ := paintPhase_spec _ _ _ _ _ _ _ h
        rw [hco, hobj] at ho1
        simp only [Option.some.injEq] at ho1
        refine ⟨obj0, { o1 with previousBounds := o1.getBounds }, rfl, hget, ?_, ?_, ?_, ?_⟩
        · rw [← ho1]
          rfl
        · rw [← ho1]
          simp only [Bool.not_eq_true] at hfl
          exact hfl
        · intro hc
          rw [hc] at hfl
          exact absurd rfl hfl
        · intro _
          unfold drawObject
          rw [hobj]
          dsimp only
          rw [if_neg hfl, hclear]
          rfl

theorem drawObject_layers (sampler : Sampler) (s : Renderer) (oi : Nat)
    (sa : AboveRegions) (sb : BelowRegions) (s' : Renderer)
    (h : drawObject sampler s oi sa sb = some s') :
    s'.layers = s.layers := by
  unfold drawObject at h
  cases hobj : s.objects.buf[oi]? with
  | none => rw [hobj] at h; exact absurd h (by simp)
  | some obj0 =>
    rw [hobj] at h
    dsimp only at h
    by_cases hfl : obj0.initialRender = true
    · rw [if_pos hfl] at h
      have := (paintPhase_spec _ _ _ _ _ _ _ h).1
      rw [this, updateObject_layers]
    · rw [if_neg hfl] at h
      cases hclear : clearObjectPreviousBounds sampler s sa sb obj0.previousBounds.y
          (obj0.previousBounds.y + obj0.previousBounds.h) obj0.previousBounds.x
          (obj0.previousBounds.x + obj0.previousBounds.w) with
      | none => rw [hclear] at h; exact absurd h (by simp)
      | some s1 =>
        rw [hclear] at h
        dsimp only at h
        have h2 := (paintPhase_spec _ _ _ _ _ _ _ h).1
        rw [h2, (clearObjectPreviousBounds_OL _ _ _ _ _ _ _ _ _ hclear).2]

end PortionRenderer

namespace PortionRenderer

theorem drainLoop_spec (l : List Layer) (i : Nat) :
    drainLoop l i = (dirtyEntriesFrom l i, clearUpdates l) := by
  induction l generalizing i with
  | nil => rfl
  | cons x rest ih =>
    simp only [drainLoop, dirtyEntriesFrom, clearUpdates, List.map_cons, ih]

theorem dirtyEntriesFrom_of_all_empty (l : List Layer) (i : Nat)
    (h : ∀ x ∈ l, x.updates = []) : dirtyEntriesFrom l i = [] := by
  induction l generalizing i with
  | nil => rfl
  | cons x rest ih =>
    simp only [dirtyEntriesFrom, h x (List.mem_cons_self x rest), List.map_nil,
      List.nil_append]
    exact ih (i + 1) (fun q hq => h q (List.mem_cons_of_mem _ hq))

theorem clearUpdates_all_empty (l : List Layer) :
    ∀ x ∈ clearUpdates l, x.updates = [] := by
  intro x hx
  rw [clearUpdates, List.mem_map] at hx
  obtain ⟨q, _, rfl⟩ := hx
  rfl

theorem clearUpdates_of_all_empty (l : List Layer)
    (h : ∀ x ∈ l, x.updates = []) : clearUpdates l = l := by
  induction l with
  | nil => rfl
  | cons x rest ih =>
    have hx := h x (List.mem_cons_self x rest)
    have ht := ih (fun q hq => h q (List.mem_cons_of_mem _ hq))
    show ({ x with updates := [] } : Layer) :: clearUpdates rest = x :: rest
    rw [ht]
    cases x
    simp only at hx
    rw [hx]

theorem drawStep_layers (sampler : Sampler) (p : Nat × Nat) (t t' : Renderer)
    (h : drawStep sampler p t = some t') : t'.layers = t.layers := by
  unfold drawStep at h
  cases ha : getRegionsAboveObject t p.2 p.1 with
  | none => rw [ha] at h; exact absurd h (by simp)
  | some above =>
    rw [ha] at h
    dsimp only at h
    cases hb : getRegionsBelowObject t p.2 p.1 with
    | none => rw [hb] at h; exact absurd h (by simp)
    | some below =>
      rw [hb] at h
      dsimp only at h
      exact drawObject_layers sampler t p.2 above below t' h

/-- C2: a completed `draw_all_layers` call (i) consists of exactly one
`drawStep` per dirty entry, in layer order — each dirty entry is drawn at
most once per call; (ii) afterwards every layer's `updates` list is empty,
so the dirty-entry list of the resulting state is empty; and (iii) a second
`draw_all_layers` with no intervening mutation performs no draws and
returns the state unchanged. -/
theorem drawAllLayers_drains (sampler : Sampler) (s s' : Renderer)
    (h : drawAllLayers sampler s = some s') :
    drawAllLayers sampler s =
      optFold (drawStep sampler) (dirtyEntries s.layers)
        { s with layers := clearUpdates s.layers } ∧
    s'.layers = clearUpdates s.layers ∧
    (∀ l ∈ s'.layers, l.updates = []) ∧
    dirtyEntries s'.layers = [] ∧
    drawAllLayers sampler s' = some s' := by
  have hdef : drawAllLayers sampler s =
      optFold (drawStep sampler) (dirtyEntries s.layers)
        { s with layers := clearUpdates s.layers } := by
    unfold drawAllLayers
    rw [drainLoop_spec]
    rfl
  have hlay : s'.layers = clearUpdates s.layers := by
    rw [hdef] at h
    have := optFold_proj Renderer.layers (drawStep sampler) (drawStep_layers sampler) _ _ _ h
    rw [this]
  have hempty : ∀ l ∈ s'.layers, l.updates = [] := by
    rw [hlay]
    exact clearUpdates_all_empty s.layers
  refine ⟨hdef, hlay, hempty, dirtyEntriesFrom_of_all_empty _ _ hempty, ?_⟩
  unfold drawAllLayers
  rw [drainLoop_spec]
  dsimp only
  rw [dirtyEntriesFrom_of_all_empty _ _ hempty, clearUpdates_of_all_empty _ hempty]
  rfl

end PortionRenderer

namespace PortionRenderer

/-- C6: for a textured, non-rotated object and a query point inside its
current bounds, `get_pixel_from_object_at` indexes the texture buffer at
`(local_x, local_y) = (x - bounds.x, y - bounds.y)` scaled by
bytes-per-pixel (row stride `bounds.w * indices_per_pixel`), returning that
pixel's four bytes; if the 4-byte range falls outside the texture buffer it
returns no pixel (`.ok none`) rather than an error. -/
theorem getPixelFromObjectAt_textured (sampler : Sampler) (s : Renderer) (oi : Nat)
    (obj : Object) (texture : Texture) (x y : Nat)
    (hobj : s.objects.buf[oi]? = some obj)
    (hnt : obj.transform = none)
    (hnc : obj.textureColor = none)
    (htex : s.textures.buf[obj.textureIndex]? = some texture)
    (hin : obj.currentBounds.mem x y) :
    getPixelFromObjectAt sampler s oi x y =
      (if getRedIndex (x - obj.currentBounds.x) (y - obj.currentBounds.y)
            obj.currentBounds.w s.indicesPerPixel + 4 ≤ texture.data.length then
        Except.ok (some
          ⟨texture.data.getD (getRedIndex (x - obj.currentBounds.x) (y - obj.currentBounds.y)
              obj.currentBounds.w s.indicesPerPixel) 0,
            texture.data.getD (getRedIndex (x - obj.currentBounds.x) (y - obj.currentBounds.y)
              obj.currentBounds.w s.indicesPerPixel + 1) 0,
            texture.data.getD (getRedIndex (x - obj.currentBounds.x) (y - obj.currentBounds.y)
              obj.currentBounds.w s.indicesPerPixel + 2) 0,
            texture.data.getD (getRedIndex (x - obj.currentBounds.x) (y - obj.currentBounds.y)
              obj.currentBounds.w s.indicesPerPixel + 3) 0⟩)
      else Except.ok none) := by
  unfold getPixelFromObjectAt
  rw [hobj]
  dsimp only
  rw [hnt]
  dsimp only
  rw [hnc]
  dsimp only
  rw [htex]
  dsimp only
  rw [if_neg (by obtain ⟨h1, _, h2, _⟩ := hin; omega)]

/-- Concrete textured renderer state used by the C6/C7 witnesses: one
non-rotated textured object with bounds `(1,1,2,2)` and a 2×2 RGBA texture
of 16 bytes. -/
def texturedObject : Object :=
  { textureColor := none, textureIndex := 0, transform := none, layerIndex := 0,
    currentBounds := ⟨1, 1, 2, 2⟩, previousBounds := ⟨1, 1, 2, 2⟩, initialRender := false }

def texturedTexture : Texture :=
  ⟨[1, 2, 3, 4, 5, 6, 7, 8, 9, 10, 11, 12, 13, 14, 15, 16], 2, 2⟩

def texturedState : Renderer :=
  { pixelBuffer := List.replicate 16 0,
    clearBuffer := List.replicate 16 0,
    portioner := ⟨2, 2, 1, 1, [[false, false], [false, false]]⟩,
    width := 2, height := 2, pitch := 8, indicesPerPixel := 4,
    textures := ⟨[texturedTexture], []⟩,
    layers := [⟨0, [0], []⟩],
    objects := ⟨[texturedObject], []⟩ }

/-- A sampler whose nearest-neighbour lookups always return the supplied
default pixel (used only to instantiate witnesses; the settled claims do
not depend on sampled values). -/
def constSampler : Sampler :=
  ⟨fun _ _ _ _ _ dflt => dflt, fun _ _ _ _ _ dflt => dflt⟩

/-- Concrete witness for `getPixelFromObjectAt_textured`: the point (2,2)
lies in the bounds `(1,1,2,2)`, local coordinates (1,1), red index 12, and
the stored pixel bytes 13,14,15,16 are returned. -/
theorem getPixelFromObjectAt_textured_witness :
    (texturedState.objects.buf[0]? = some texturedObject ∧
      Rect.mem ⟨1, 1, 2, 2⟩ 2 2) ∧
    getPixelFromObjectAt constSampler texturedState 0 2 2 =
      (if getRedIndex (2 - texturedObject.currentBounds.x) (2 - texturedObject.currentBounds.y)
            texturedObject.currentBounds.w texturedState.indicesPerPixel + 4 ≤
              texturedTexture.data.length then
        Except.ok (some
          ⟨texturedTexture.data.getD (getRedIndex (2 - texturedObject.currentBounds.x)
              (2 - texturedObject.currentBounds.y) texturedObject.currentBounds.w
              texturedState.indicesPerPixel) 0,
            texturedTexture.data.getD (getRedIndex (2 - texturedObject.currentBounds.x)
              (2 - texturedObject.currentBounds.y) texturedObject.currentBounds.w
              texturedState.indicesPerPixel + 1) 0,
            texturedTexture.data.getD (getRedIndex (2 - texturedObject.currentBounds.x)
              (2 - texturedObject.currentBounds.y) texturedObject.currentBounds.w
              texturedState.indicesPerPixel + 2) 0,
            texturedTexture.data.getD (getRedIndex (2 - texturedObject.currentBounds.x)
              (2 - texturedObject.currentBounds.y) texturedObject.currentBounds.w
              texturedState.indicesPerPixel + 3) 0⟩)
      else Except.ok none) :=
  ⟨⟨by decide, by decide⟩,
    getPixelFromObjectAt_textured constSampler texturedState 0 texturedObject
      texturedTexture 2 2 (by decide) rfl rfl (by decide) (by decide)⟩

/-- C7 counterexample: the query point (5, 1) is outside the object's
current bounds `(1,1,2,2)`, yet `get_pixel_from_object_at` does not panic —
it falls through to the texture lookup, whose 4-byte range (red index 16)
misses the 16-byte buffer, and returns `.ok none`. -/
theorem getPixelFromObjectAt_outside_no_panic :
    Rect.containsU32 ⟨1, 1, 2, 2⟩ 5 1 = false ∧
    getPixelFromObjectAt constSampler texturedState 0 5 1 = Except.ok none := by
  constructor
  · decide
  · rfl

/-- C7 (amended): for a textured, non-rotated object (with object and
texture reads succeeding), `get_pixel_from_object_at` panics exactly when
`x < current_bounds.x` or `y < current_bounds.y`; a point past the right or
bottom edge does not panic — it falls through to the texture lookup. -/
theorem getPixelFromObjectAt_panic_iff (sampler : Sampler) (s : Renderer) (oi : Nat)
    (obj : Object) (texture : Texture) (x y : Nat)
    (hobj : s.objects.buf[oi]? = some obj)
    (hnt : obj.transform = none)
    (hnc : obj.textureColor = none)
    (htex : s.textures.buf[obj.textureIndex]? = some texture) :
    (getPixelFromObjectAt sampler s oi x y = Except.error () ↔
      (x < obj.currentBounds.x ∨ y < obj.currentBounds.y)) := by
  unfold getPixelFromObjectAt
  rw [hobj]
  dsimp only
  rw [hnt]
  dsimp only
  rw [hnc]
  dsimp only
  rw [htex]
  dsimp only
  by_cases hp : x < obj.currentBounds.x ∨ y < obj.currentBounds.y
  · rw [if_pos hp]
    simp [hp]
  · rw [if_neg hp]
    constructor
    · intro hcontr
      split at hcontr <;> cases hcontr
    · intro hc
      exact absurd hc hp

/-- Concrete witness for `getPixelFromObjectAt_panic_iff`: the point (0, 2)
has `x = 0 < 1 = bounds.x`, so the call panics. -/
theorem getPixelFromObjectAt_panic_iff_witness :
    texturedState.objects.buf[0]? = some texturedObject ∧
    (getPixelFromObjectAt constSampler texturedState 0 0 2 = Except.error () ↔
      ((0 : Nat) < 1 ∨ (2 : Nat) < 1)) :=
  ⟨by decide,
    getPixelFromObjectAt_panic_iff constSampler texturedState 0 texturedObject
      texturedTexture 0 2 (by decide) rfl rfl (by decide)⟩

end PortionRenderer

namespace PortionRenderer

/-- C10: a negative `move_object_x_by` (resp. `move_object_y_by`) whose
magnitude exceeds the object's `current_bounds.x` (resp. `.y`) is silently
ignored: every object's `current_bounds` is left unchanged and the layer
list — in particular the layer's dirty `updates` list — is untouched
(neither clamped to the edge nor reported as an error). -/
theorem moveObject_negative_overshoot_ignored (s : Renderer) (oi : Nat) (d : Int)
    (obj : Object) (hobj : s.objects.buf[oi]? = some obj) (hd : d < 0) :
    (obj.currentBounds.x < (-d).toNat →
      ∀ s', moveObjectXBy s oi d = some s' →
        (∀ j : Nat, (s'.objects.buf[j]?).map Object.currentBounds =
          (s.objects.buf[j]?).map Object.currentBounds) ∧
        s'.layers = s.layers) ∧
    (obj.currentBounds.y < (-d).toNat →
      ∀ s', moveObjectYBy s oi d = some s' →
        (∀ j : Nat, (s'.objects.buf[j]?).map Object.currentBounds =
          (s.objects.buf[j]?).map Object.currentBounds) ∧
        s'.layers = s.layers) := by
  constructor
  · intro hmag s' h
    unfold moveObjectXBy at h
    rw [hobj] at h
    dsimp only at h
    rw [if_pos (by exact_mod_cast hd), if_neg (by omega)] at h
    simp only [Option.some.injEq] at h
    subst h
    refine ⟨?_, updateObject_layers s oi _⟩
    intro j
    by_cases hj : oi = j
    · subst hj
      rw [updateObject_get_self s oi _ obj hobj, hobj]
      cases htr : obj.transform <;> simp [htr]
    · rw [updateObject_get_ne s oi _ j hj]
  · intro hmag s' h
    unfold moveObjectYBy at h
    rw [hobj] at h
    dsimp only at h
    rw [if_pos (by exact_mod_cast hd), if_neg (by omega)] at h
    simp only [Option.some.injEq] at h
    subst h
    refine ⟨?_, updateObject_layers s oi _⟩
    intro j
    by_cases hj : oi = j
    · subst hj
      rw [updateObject_get_self s oi _ obj hobj, hobj]
      cases htr : obj.transform <;> simp [htr]
    · rw [updateObject_get_ne s oi _ j hj]

/-- Concrete witness for `moveObject_negative_overshoot_ignored`: moving
the object at bounds `(1,1,2,2)` by −5 in either axis. -/
theorem moveObject_negative_overshoot_ignored_witness :
    (texturedState.objects.buf[0]? = some texturedObject ∧ (-5 : Int) < 0 ∧
      texturedObject.currentBounds.x < ((-(-5) : Int)).toNat) ∧
    (∀ s', moveObjectXBy texturedState 0 (-5) = some s' →
        (∀ j : Nat, (s'.objects.buf[j]?).map Object.currentBounds =
          (texturedState.objects.buf[j]?).map Object.currentBounds) ∧
        s'.layers = texturedState.layers) :=
  ⟨⟨by decide, by decide, by decide⟩,
    (moveObject_negative_overshoot_ignored texturedState 0 (-5) texturedObject
      (by decide) (by decide)).1 (by decide)⟩

end PortionRenderer

namespace PortionRenderer

/-- A 1×1 flat-colour object used by the C2/C3 witnesses. -/
def testObject : Object :=
  { textureColor := some ⟨9, 8, 7, 255⟩, textureIndex := 0, transform := none, layerIndex := 0,
    currentBounds := ⟨0, 0, 1, 1⟩, previousBounds := ⟨0, 0, 1, 1⟩, initialRender := true }

/-- A 1×1 renderer holding `testObject`, dirty on layer 0. -/
def testState : Renderer :=
  { pixelBuffer := [0, 0, 0, 0],
    clearBuffer := [0, 0, 0, 0],
    portioner := ⟨1, 1, 1, 1, [[false]]⟩,
    width := 1, height := 1, pitch := 4, indicesPerPixel := 4,
    textures := ⟨[], []⟩,
    layers := [⟨0, [0], [0]⟩],
    objects := ⟨[testObject], []⟩ }

/-- The state produced by `drawAllLayers constSampler testState`. -/
def testStateDrawn : Renderer :=
  { pixelBuffer := [9, 8, 7, 255],
    clearBuffer := [0, 0, 0, 0],
    portioner := ⟨1, 1, 1, 1, [[true]]⟩,
    width := 1, height := 1, pitch := 4, indicesPerPixel := 4,
    textures := ⟨[], []⟩,
    layers := [⟨0, [0], []⟩],
    objects := ⟨[{ testObject with initialRender := false }], []⟩ }

/-- Concrete witness for `drawAllLayers_drains`: drawing the 1×1 test scene
empties the dirty list and a second draw is a no-op. -/
theorem drawAllLayers_drains_witness :
    drawAllLayers constSampler testState = some testStateDrawn ∧
    ((∀ l ∈ testStateDrawn.layers, l.updates = []) ∧
      dirtyEntries testStateDrawn.layers = [] ∧
      drawAllLayers constSampler testStateDrawn = some testStateDrawn) :=
  ⟨by decide,
    ⟨(drawAllLayers_drains constSampler testState testStateDrawn (by decide)).2.2.1,
      (drawAllLayers_drains constSampler testState testStateDrawn (by decide)).2.2.2.1,
      (drawAllLayers_drains constSampler testState testStateDrawn (by decide)).2.2.2.2⟩⟩

/-- `testState` with the object already rendered once (so the next
`draw_object` takes the clear-previous-bounds path). -/
def testState2 : Renderer :=
  { testState with objects := ⟨[{ testObject with initialRender := false }], []⟩ }

/-- The state produced by `drawObject constSampler testState2 0`. -/
def testState2Drawn : Renderer :=
  { pixelBuffer := [9, 8, 7, 255],
    clearBuffer := [0, 0, 0, 0],
    portioner := ⟨1, 1, 1, 1, [[true]]⟩,
    width := 1, height := 1, pitch := 4, indicesPerPixel := 4,
    textures := ⟨[], []⟩,
    layers := [⟨0, [0], [0]⟩],
    objects := ⟨[{ testObject with initialRender := false }], []⟩ }

/-- Concrete witness for `drawObject_spec`: a completed non-first draw of
the 1×1 test object leaves `previous_bounds` at the drawn footprint and the
flag false. -/
theorem drawObject_spec_witness :
    drawObject constSampler testState2 0 ⟨[], []⟩ ⟨[]⟩ = some testState2Drawn ∧
    (∃ obj obj', testState2.objects.buf[0]? = some obj ∧
      testState2Drawn.objects.buf[0]? = some obj' ∧
      obj'.previousBounds = (match obj.transform with
        | some t => t.bounds.boundingRect
        | none => obj.currentBounds) ∧
      obj'.initialRender = false ∧
      (obj.initialRender = true →
        drawObject constSampler testState2 0 ⟨[], []⟩ ⟨[]⟩ =
          paintPhase constSampler
            (updateObject testState2 0 (fun o => { o with initialRender := false }))
            0 ⟨[], []⟩ obj.textureColor obj.textureIndex) ∧
      (obj.initialRender = false →
        drawObject constSampler testState2 0 ⟨[], []⟩ ⟨[]⟩ =
          (clearObjectPreviousBounds constSampler testState2 ⟨[], []⟩ ⟨[]⟩
            obj.previousBounds.y (obj.previousBounds.y + obj.previousBounds.h)
            obj.previousBounds.x (obj.previousBounds.x + obj.previousBounds.w)).bind
          (fun s1 => paintPhase constSampler s1 0 ⟨[], []⟩ obj.textureColor obj.textureIndex))) :=
  ⟨by decide,
    drawObject_spec constSampler testState2 0 ⟨[], []⟩ ⟨[]⟩ testState2Drawn (by decide)⟩

end PortionRenderer
